import Mathlib

/-!
Verification of the PR-reviewer service (Go) against its natural-language
specification.  The storage gateway (Postgres, `internal/repo`) is modelled as
a functional database: the relational tables become lists of rows, and every
repository method becomes a pure function on that state.  The service layer
(`internal/service/service.go`, context-based version) is translated
operation by operation; randomness (`cryptoRandInt`) is modelled by an
explicit oracle (`Nat` values taken modulo the pool size), and each
state-changing operation is written in state-passing style
`DB → ... → Except Err α × DB`, so that error paths still exhibit the
resulting storage state.

Sequentially deterministic details that Go leaves to the SQL engine
(`ORDER BY` clauses) are modelled by the ambient list order of the table;
all claims below are insensitive to that order.  Cancellation contexts are
modelled where a claim needs them (the dispatcher's stop signal, a job's
pre-execution cancellation check); inside the assignment-engine operations a
context that is never cancelled mid-run is elided, matching single-job
sequential execution.
-/

namespace PRrev

/-- `users` table row (`internal/models.User`): user_id PK, username,
team_name, is_active. -/
structure User where
  userID : String
  username : String
  teamName : String
  isActive : Bool
deriving Repr, DecidableEq

/-- Team member as returned by `GetTeam` (user_id, username, is_active). -/
structure TeamMember where
  userID : String
  username : String
  isActive : Bool
deriving Repr, DecidableEq

/-- `models.Team`: team name plus member list. -/
structure Team where
  teamName : String
  members : List TeamMember
deriving Repr, DecidableEq

/-- `models.PRReviewer`: a reviewer entry of a pull request
(user_id, username, is_active as joined from `users`). -/
structure PRReviewer where
  userID : String
  username : String
  isActive : Bool
deriving Repr, DecidableEq

/-- `pull_requests` table row: id, name, author, status (OPEN/MERGED),
need_more_reviewers, created_at, merged_at.  Timestamps are abstract `Nat`
clock values. -/
structure PRRow where
  pullRequestID : String
  pullRequestName : String
  authorID : String
  status : String
  needMoreReviewers : Bool
  createdAt : Nat
  mergedAt : Option Nat
deriving Repr, DecidableEq

/-- `models.PullRequest`: the row fields plus the `Assigned` reviewer list
assembled by `GetPR`'s join. -/
structure PullRequest where
  pullRequestID : String
  pullRequestName : String
  authorID : String
  status : String
  needMoreReviewers : Bool
  createdAt : Nat
  mergedAt : Option Nat
  assigned : List PRReviewer
deriving Repr, DecidableEq

/-- `models.PullRequestShort` as returned by `GetPRsByReviewer`. -/
structure PullRequestShort where
  pullRequestID : String
  pullRequestName : String
  authorID : String
  status : String
deriving Repr, DecidableEq

/-- The storage state: the three tables the assignment engine touches.
`reviewers` is the `pr_reviewers` join table of (pull_request_id, user_id)
pairs. -/
structure DB where
  users : List User
  prs : List PRRow
  reviewers : List (String × String)
deriving Repr, DecidableEq

/-- Error taxonomy: the `service` package's tagged errors
(`internal/service/interface.go`), the validator errors
(`validator.go`), `context.Canceled`, and the repo-level error strings that
are not remapped to `NotFound` (`"no users updated"` from `SetTeamActive`,
the rolled-back constraint violations of `ReplaceReviewer`). -/
inductive Err where
  | notFound
  | prExists
  | prMerged
  | notAssigned
  | noCandidate
  | unknownJobType
  | jobQueueFull
  | userInactive
  | canceled
  | missingPRID
  | missingPRName
  | missingAuthorID
  | missingUserID
  | missingTeamName
  | noUsersUpdated
  | invalidReplace
  | insertReviewerFailed
deriving Repr, DecidableEq

/-! ## Repository layer (`internal/repo`, Postgres implementation) -/

/-- `GetUser`: `SELECT ... FROM users WHERE user_id=$1`. -/
def DB.getUser (db : DB) (uid : String) : Option User :=
  db.users.find? (fun u => u.userID == uid)

/-- `GetUserTeam`: `SELECT team_name FROM users WHERE user_id=$1`. -/
def DB.getUserTeam (db : DB) (uid : String) : Option String :=
  (db.getUser uid).map (fun u => u.teamName)

/-- `GetTeam`: members are all users with the team name; empty ⇒ "not found". -/
def DB.getTeam (db : DB) (teamName : String) : Option Team :=
  let members := (db.users.filter (fun u => u.teamName == teamName)).map
    (fun u => ({ userID := u.userID, username := u.username,
                 isActive := u.isActive } : TeamMember))
  if members.isEmpty then none else some { teamName := teamName, members := members }

/-- `UpdateUserActive`: `UPDATE users SET is_active=$1 WHERE user_id=$2`;
zero rows affected ⇒ "not found"; then re-select the updated user. -/
def DB.updateUserActive (db : DB) (uid : String) (active : Bool) :
    Option (User × DB) :=
  if db.users.any (fun u => u.userID == uid) then
    let db' : DB := { db with
      users := db.users.map (fun u =>
        if u.userID == uid then { u with isActive := active } else u) }
    (db'.getUser uid).map (fun u => (u, db'))
  else none

/-- The `pull_requests` row for an id. -/
def DB.getPRRow (db : DB) (prID : String) : Option PRRow :=
  db.prs.find? (fun p => p.pullRequestID == prID)

/-- The `pr_reviewers` rows of one pull request. -/
def DB.reviewersOf (db : DB) (prID : String) : List (String × String) :=
  db.reviewers.filter (fun p => p.1 == prID)

/-- `GetPR`: select the row, then join `pr_reviewers` with `users` to build
the `Assigned` list (an inner join: pairs whose user is missing produce no
reviewer entry). -/
def DB.getPR (db : DB) (prID : String) : Option PullRequest :=
  (db.getPRRow prID).map (fun row =>
    { pullRequestID := row.pullRequestID
      pullRequestName := row.pullRequestName
      authorID := row.authorID
      status := row.status
      needMoreReviewers := row.needMoreReviewers
      createdAt := row.createdAt
      mergedAt := row.mergedAt
      assigned := (db.reviewersOf prID).filterMap (fun p =>
        (db.getUser p.2).map (fun u =>
          ({ userID := u.userID, username := u.username,
             isActive := u.isActive } : PRReviewer))) })

/-- Repo `CreatePR`: transactional insert of the row and the reviewer pairs.
A duplicate pull_request_id violates the primary key (the service always
checks non-existence first). -/
def DB.createPRRepo (db : DB) (pr : PullRequest) : Option DB :=
  if (db.getPRRow pr.pullRequestID).isSome then none
  else some { db with
    prs := db.prs ++ [{ pullRequestID := pr.pullRequestID
                        pullRequestName := pr.pullRequestName
                        authorID := pr.authorID
                        status := pr.status
                        needMoreReviewers := pr.needMoreReviewers
                        createdAt := pr.createdAt
                        mergedAt := pr.mergedAt }]
    reviewers := db.reviewers ++ pr.assigned.map (fun r => (pr.pullRequestID, r.userID)) }

/-- Repo `MergePR`: `UPDATE pull_requests SET status='MERGED', merged_at=$1
WHERE pull_request_id=$2` (no row count check) followed by `GetPR`. -/
def DB.mergePRRepo (db : DB) (prID : String) (t : Nat) :
    Option (PullRequest × DB) :=
  let db' : DB := { db with
    prs := db.prs.map (fun p =>
      if p.pullRequestID == prID then
        { p with status := "MERGED", mergedAt := some t } else p) }
  (db'.getPR prID).map (fun pr => (pr, db'))

/-- Repo `ReplaceReviewer`: in one transaction, delete (prID, oldUID) if
oldUID ≠ "", insert (prID, newUID) if newUID ≠ "", error if both are empty;
then `GetPR`.  A failed insert (missing PR / missing user / duplicate pair —
the table's foreign keys and primary key) aborts the transaction, leaving
the state unchanged. -/
def DB.replaceReviewer (db : DB) (prID oldUID newUID : String) :
    Except Err PullRequest × DB :=
  if oldUID == "" && newUID == "" then (.error .invalidReplace, db)
  else
    let revs1 := if oldUID == "" then db.reviewers
      else db.reviewers.filter (fun p => !(p.1 == prID && p.2 == oldUID))
    if newUID == "" then
      let db' : DB := { db with reviewers := revs1 }
      match db'.getPR prID with
      | some pr => (.ok pr, db')
      | none => (.error .notFound, db')
    else
      if (db.getPRRow prID).isSome && (db.getUser newUID).isSome
          && !(revs1.contains (prID, newUID)) then
        let db' : DB := { db with reviewers := revs1 ++ [(prID, newUID)] }
        match db'.getPR prID with
        | some pr => (.ok pr, db')
        | none => (.error .notFound, db')
      else (.error .insertReviewerFailed, db)

/-- Repo `SetTeamActive`: bulk `UPDATE users SET is_active=$1 WHERE
team_name=$2`; zero rows affected ⇒ error "no users updated". -/
def DB.setTeamActive (db : DB) (teamName : String) (active : Bool) :
    Except Err DB :=
  if db.users.any (fun u => u.teamName == teamName) then
    .ok { db with
      users := db.users.map (fun u =>
        if u.teamName == teamName then { u with isActive := active } else u) }
  else .error .noUsersUpdated

/-- Repo `GetActiveTeamMembersExcept`: active users of the team, excluding
`exceptUser` when it is non-empty. -/
def DB.getActiveTeamMembersExcept (db : DB) (teamName exceptUser : String) :
    List String :=
  (db.users.filter (fun u =>
    u.teamName == teamName && u.isActive
      && (exceptUser == "" || u.userID != exceptUser))).map (fun u => u.userID)

/-- Repo `GetPRsByReviewer`: join of `pull_requests` with `pr_reviewers` on
the reviewer's user id. -/
def DB.getPRsByReviewer (db : DB) (uid : String) : List PullRequestShort :=
  (db.reviewers.filter (fun p => p.2 == uid)).filterMap (fun p =>
    (db.getPRRow p.1).map (fun row =>
      ({ pullRequestID := row.pullRequestID
         pullRequestName := row.pullRequestName
         authorID := row.authorID
         status := row.status } : PullRequestShort)))

/-! ## Validators (`internal/service/validator.go`) -/

/-- `validatePullRequest`: the three required fields in order. -/
def validatePullRequest (pr : PullRequest) : Option Err :=
  if pr.pullRequestID == "" then some .missingPRID
  else if pr.pullRequestName == "" then some .missingPRName
  else if pr.authorID == "" then some .missingAuthorID
  else none

/-- `validateUserID`. -/
def validateUserID (uid : String) : Option Err :=
  if uid == "" then some .missingUserID else none

/-- `validateTeamName`. -/
def validateTeamName (name : String) : Option Err :=
  if name == "" then some .missingTeamName else none

/-! ## Assignment engine (`internal/service/service.go`)

Randomness: `cryptoRandInt n` produces a uniform index `< n`; it is modelled
by an oracle value `r : Nat` used as `r % n` (in `CreatePR`'s loop, a list of
oracle values consumed one per iteration, mirroring one `cryptoRandInt` call
per iteration). -/

/-- `maxReviewers` constant. -/
def maxReviewers : Nat := 2

/-- `CreatePR`'s reviewer-selection loop: while fewer than two reviewers are
selected and candidates remain, draw a random candidate, re-check it against
storage (`GetUser`), keep it only if still active, and remove it from the
pool either way.  The loop runs at most `candidateIDs.length` iterations
(each iteration removes exactly one candidate), so that length is used as
structural fuel. -/
def selectLoop (db : DB) : Nat → List Nat → List String → List PRReviewer →
    List PRReviewer
  | 0, _, _, selected => selected
  | fuel + 1, rs, cands, selected =>
    if selected.length ≥ maxReviewers then selected
    else match cands with
    | [] => selected
    | _ :: _ =>
      let idx := rs.headD 0 % cands.length
      let uid := cands.getD idx ""
      let cands' := cands.eraseIdx idx
      match db.getUser uid with
      | none => selectLoop db fuel rs.tail cands' selected
      | some u =>
        if u.isActive then
          selectLoop db fuel rs.tail cands'
            (selected ++ [{ userID := u.userID, username := u.username,
                            isActive := u.isActive }])
        else selectLoop db fuel rs.tail cands' selected

/-- Reviewer selection of `CreatePR`, started with the full candidate pool
and no selection. -/
def selectReviewers (db : DB) (rs : List Nat) (cands : List String) :
    List PRReviewer :=
  selectLoop db cands.length rs cands []

/-- `CreatePR` (service): validate, reject duplicates, resolve the author's
team, fetch active candidates excluding the author, select up to two
reviewers, set `OPEN` / `needsMoreReviewers` / the creation time, persist,
and re-fetch the persisted record. -/
def createPR (db : DB) (rs : List Nat) (now : Nat) (pr0 : PullRequest) :
    Except Err PullRequest × DB :=
  match validatePullRequest pr0 with
  | some e => (.error e, db)
  | none =>
    if (db.getPRRow pr0.pullRequestID).isSome then (.error .prExists, db)
    else match db.getUserTeam pr0.authorID with
    | none => (.error .notFound, db)
    | some teamName =>
      let candidateIDs := db.getActiveTeamMembersExcept teamName pr0.authorID
      let selected := selectReviewers db rs candidateIDs
      let pr1 : PullRequest := { pr0 with
        assigned := selected
        needMoreReviewers := decide (selected.length < maxReviewers)
        status := "OPEN"
        createdAt := now }
      match db.createPRRepo pr1 with
      | none => (.error .prExists, db)
      | some db' =>
        match db'.getPR pr1.pullRequestID with
        | none => (.error .notFound, db')
        | some created => (.ok created, db')

/-- `MergePR` (service): fetch; if already `MERGED` return unchanged
(idempotent success); else update status and timestamp and return the
re-fetched record. -/
def mergePR (db : DB) (now : Nat) (prID : String) :
    Except Err PullRequest × DB :=
  match db.getPR prID with
  | none => (.error .notFound, db)
  | some pr =>
    if pr.status == "MERGED" then (.ok pr, db)
    else match db.mergePRRepo prID now with
    | none => (.error .notFound, db)
    | some (merged, db') => (.ok merged, db')

/-- The local refresh loop at the top of `Reassign`: re-read each assigned
reviewer's active flag into the in-memory copy (user ids are untouched). -/
def refreshAssigned (db : DB) (pr : PullRequest) : PullRequest :=
  { pr with assigned := pr.assigned.map (fun r =>
      match db.getUser r.userID with
      | some u => { r with isActive := u.isActive }
      | none => r) }

/-- The candidate pool of `Reassign`: active members of the origin
reviewer's team, minus the origin reviewer and everyone already assigned. -/
def reassignPool (db : DB) (pr : PullRequest) (oldUser teamName : String) :
    List String :=
  (db.getActiveTeamMembersExcept teamName "").filter (fun c =>
    !(c == oldUser) && !(pr.assigned.any (fun a => a.userID == c)))

/-- The commit phase of `Reassign`: re-verify the chosen candidate against
the storage state at commit time (`db` here is that snapshot — under
concurrent interference it can differ from the selection-time state), fail
`NoCandidate` if the candidate is missing or inactive, otherwise atomically
replace the reviewer and recompute `needsMoreReviewers` on the returned
record. -/
def reassignCommit (db : DB) (prID oldUser newUID : String) :
    Except Err (PullRequest × String) × DB :=
  match db.getUser newUID with
  | none => (.error .noCandidate, db)
  | some nu =>
    if !nu.isActive then (.error .noCandidate, db)
    else match db.replaceReviewer prID oldUser newUID with
    | (.error e, db') => (.error e, db')
    | (.ok pr1, db') =>
      (.ok ({ pr1 with
          needMoreReviewers := decide (pr1.assigned.length < maxReviewers) },
        newUID), db')

/-- `Reassign` (service): fetch the PR, refresh the local reviewer flags,
enforce the merge freeze, require `oldUser` to be currently assigned and
active, build the candidate pool from `oldUser`'s team, fail `NoCandidate`
on an empty pool, pick one candidate uniformly, and commit
(single-shot — no retry). -/
def reassign (db : DB) (rnd : Nat) (prID oldUser : String) :
    Except Err (PullRequest × String) × DB :=
  match db.getPR prID with
  | none => (.error .notFound, db)
  | some pr0 =>
    let pr := refreshAssigned db pr0
    if pr.status == "MERGED" then (.error .prMerged, db)
    else if !(pr.assigned.any (fun r => r.userID == oldUser)) then
      (.error .notAssigned, db)
    else match db.getUser oldUser with
    | none => (.error .notFound, db)
    | some u =>
      if !u.isActive then (.error .userInactive, db)
      else match db.getUserTeam oldUser with
      | none => (.error .notFound, db)
      | some teamName =>
        let avail := reassignPool db pr oldUser teamName
        if avail.isEmpty then (.error .noCandidate, db)
        else
          let newUID := avail.getD (rnd % avail.length) ""
          reassignCommit db prID oldUser newUID

/-- `GetTeam` (service): validate the name, fetch, remap missing to
`NotFound`. -/
def getTeamSvc (db : DB) (name : String) : Except Err Team :=
  match validateTeamName name with
  | some e => .error e
  | none =>
    match db.getTeam name with
    | none => .error .notFound
    | some t => .ok t

/-- `SetUserActive` (service): validate the id, update, remap missing to
`NotFound`. -/
def setUserActiveSvc (db : DB) (uid : String) (active : Bool) :
    Except Err User × DB :=
  match validateUserID uid with
  | some e => (.error e, db)
  | none =>
    match db.updateUserActive uid active with
    | none => (.error .notFound, db)
    | some (u, db') => (.ok u, db')

/-- `reassignReviewer` (the best-effort single-shot replacement used by
`DeactivateTeam`): the candidate pool is the active members of the
**`teamName` argument** (the team being deactivated), minus the PR's
currently assigned reviewers; one uniform pick, then an atomic replace.
The oracle stream is consumed only when a pick is made (`cryptoRandInt`
runs only after the emptiness check). -/
def reassignReviewer (db : DB) (rs : List Nat) (prID oldUID teamName : String) :
    Except Err (String × DB) × List Nat :=
  let cands := db.getActiveTeamMembersExcept teamName ""
  match db.getPR prID with
  | none => (.error .notFound, rs)
  | some pr =>
    let avail := cands.filter (fun c => !(pr.assigned.any (fun a => a.userID == c)))
    if avail.isEmpty then (.error .noCandidate, rs)
    else
      let newUID := avail.getD (rs.headD 0 % avail.length) ""
      match db.replaceReviewer prID oldUID newUID with
      | (.error e, _) => (.error e, rs.tail)
      | (.ok _, db') => (.ok (newUID, db'), rs.tail)

/-- Innermost loop of `DeactivateTeam`: over the (snapshot) assigned
reviewers of one open PR, re-check each one's current active flag and, for
each inactive one, attempt the single-shot replacement; a failed attempt is
logged and skipped.  (The `updated` flag and the local `NeedMoreReviewers`
recompute in the Go code touch only a local copy that is never persisted or
returned, so they have no observable effect.) -/
def deactivateRevLoop (db : DB) (rs : List Nat) (teamName prID : String) :
    List PRReviewer → DB × List Nat
  | [] => (db, rs)
  | rev :: rest =>
    match db.getUser rev.userID with
    | none => deactivateRevLoop db rs teamName prID rest
    | some user =>
      if user.isActive then deactivateRevLoop db rs teamName prID rest
      else match reassignReviewer db rs prID rev.userID teamName with
      | (.error _, rs') => deactivateRevLoop db rs' teamName prID rest
      | (.ok (_, db'), rs') => deactivateRevLoop db' rs' teamName prID rest

/-- Middle loop of `DeactivateTeam`: over the PRs on which one member is a
reviewer; skip PRs that cannot be fetched or are not `OPEN`. -/
def deactivatePRLoop (db : DB) (rs : List Nat) (teamName : String) :
    List PullRequestShort → DB × List Nat
  | [] => (db, rs)
  | s :: rest =>
    match db.getPR s.pullRequestID with
    | none => deactivatePRLoop db rs teamName rest
    | some pr =>
      if pr.status != "OPEN" then deactivatePRLoop db rs teamName rest
      else
        let (db', rs') := deactivateRevLoop db rs teamName s.pullRequestID pr.assigned
        deactivatePRLoop db' rs' teamName rest

/-- Outer loop of `DeactivateTeam`: over the team-member snapshot taken
before the bulk deactivation. -/
def deactivateMemberLoop (db : DB) (rs : List Nat) (teamName : String) :
    List TeamMember → DB × List Nat
  | [] => (db, rs)
  | m :: rest =>
    let prs := db.getPRsByReviewer m.userID
    let (db', rs') := deactivatePRLoop db rs teamName prs
    deactivateMemberLoop db' rs' teamName rest

/-- `DeactivateTeam` (service): fetch the team, bulk-flip its members to
inactive, then run the best-effort cleanup cascade; per-PR replacement
failures never fail the overall operation. -/
def deactivateTeam (db : DB) (rs : List Nat) (teamName : String) :
    Except Err Unit × DB :=
  match getTeamSvc db teamName with
  | .error e => (.error e, db)
  | .ok team =>
    match db.setTeamActive teamName false with
    | .error e => (.error e, db)
    | .ok db1 =>
      let (db2, _) := deactivateMemberLoop db1 rs teamName team.members
      (.ok (), db2)

/-! ## Job dispatcher (`EnqueueJob`, `handleJob`) -/

/-- A dynamically typed payload value, mirroring the
`map[string]interface{}` entries the handlers actually read
(a `models.PullRequest`, a `string`, or a `bool`); `other` stands for any
value of a different dynamic type, on which the type assertion fails. -/
inductive PVal where
  | pr (p : PullRequest)
  | str (s : String)
  | bool (b : Bool)
  | other
deriving Repr, DecidableEq

/-- A job: its cancellation signal (whether `ctx.Done()` has already fired
when the worker picks it up), the operation kind, the payload bag, and
whether a reply channel was provided. -/
structure Job where
  ctxCanceled : Bool
  type : String
  payload : List (String × PVal)
  hasRespCh : Bool
deriving Repr, DecidableEq

/-- Payload lookup (`job.Payload["k"]`). -/
def Job.lookup (j : Job) (k : String) : Option PVal :=
  (j.payload.find? (fun p => p.1 == k)).map (fun p => p.2)

/-- The `.(models.PullRequest)` type assertion. -/
def asPR : Option PVal → Option PullRequest
  | some (.pr p) => some p
  | _ => none

/-- The `.(string)` type assertion. -/
def asStr : Option PVal → Option String
  | some (.str s) => some s
  | _ => none

/-- The `.(bool)` type assertion. -/
def asBool : Option PVal → Option Bool
  | some (.bool b) => some b
  | _ => none

/-- The `Data` field of a `JobResult` (Go `interface{}`), one constructor
per shape the handlers produce; `nil` data is `JData.nothing`. -/
inductive JData where
  | nothing
  | pr (p : PullRequest)
  | team (t : Team)
  | user (u : User)
  | shorts (l : List PullRequestShort)
  | reassignResult (p : PullRequest) (newUser : String)
  | teamTag (name : String)
deriving Repr, DecidableEq

/-- `JobResult`: a data payload and an error tag. -/
structure JobResult where
  data : JData
  error : Option Err
deriving Repr, DecidableEq

/-- The zero `models.PullRequest{}` value returned on error paths. -/
def emptyPR : PullRequest :=
  { pullRequestID := "", pullRequestName := "", authorID := "", status := ""
    needMoreReviewers := false, createdAt := 0, mergedAt := none, assigned := [] }

/-- The zero `models.Team{}` value. -/
def emptyTeam : Team := { teamName := "", members := [] }

/-- The zero `models.User{}` value. -/
def emptyUser : User :=
  { userID := "", username := "", teamName := "", isActive := false }

/-- `handleJob`: check the job's cancellation signal first; then dispatch on
the job kind, failing with the unknown-job-type error when the kind is
unknown or a required payload parameter is missing or of the wrong dynamic
type; business results and errors are forwarded verbatim in the
`JobResult`. -/
def handleJob (db : DB) (rs : List Nat) (now : Nat) (job : Job) :
    JobResult × DB :=
  if job.ctxCanceled then ({ data := .nothing, error := some .canceled }, db)
  else match job.type with
  | "create_pr" =>
    match asPR (job.lookup "pr") with
    | none => ({ data := .nothing, error := some .unknownJobType }, db)
    | some v =>
      match createPR db rs now v with
      | (.ok created, db') => ({ data := .pr created, error := none }, db')
      | (.error e, db') => ({ data := .pr emptyPR, error := some e }, db')
  | "merge_pr" =>
    match asStr (job.lookup "pr_id") with
    | none => ({ data := .nothing, error := some .unknownJobType }, db)
    | some v =>
      match mergePR db now v with
      | (.ok merged, db') => ({ data := .pr merged, error := none }, db')
      | (.error e, db') => ({ data := .pr emptyPR, error := some e }, db')
  | "reassign_pr" =>
    match asStr (job.lookup "pr_id"), asStr (job.lookup "old_user") with
    | some prID, some oldUser =>
      (match reassign db (rs.headD 0) prID oldUser with
       | (.ok (pr, newUID), db') =>
         ({ data := .reassignResult pr newUID, error := none }, db')
       | (.error e, db') =>
         ({ data := .reassignResult emptyPR "", error := some e }, db'))
    | _, _ => ({ data := .nothing, error := some .unknownJobType }, db)
  | "get_team" =>
    match asStr (job.lookup "team") with
    | none => ({ data := .nothing, error := some .unknownJobType }, db)
    | some name =>
      match getTeamSvc db name with
      | .ok t => ({ data := .team t, error := none }, db)
      | .error e => ({ data := .team emptyTeam, error := some e }, db)
  | "set_user_active" =>
    match asStr (job.lookup "uid"), asBool (job.lookup "active") with
    | some uid, some active =>
      (match setUserActiveSvc db uid active with
       | (.ok u, db') => ({ data := .user u, error := none }, db')
       | (.error e, db') => ({ data := .user emptyUser, error := some e }, db'))
    | _, _ => ({ data := .nothing, error := some .unknownJobType }, db)
  | "get_reviews" =>
    match asStr (job.lookup "uid") with
    | none => ({ data := .nothing, error := some .unknownJobType }, db)
    | some uid => ({ data := .shorts (db.getPRsByReviewer uid), error := none }, db)
  | "deactivate_team" =>
    match asStr (job.lookup "team_name") with
    | none => ({ data := .nothing, error := some .unknownJobType }, db)
    | some teamName =>
      match deactivateTeam db rs teamName with
      | (.ok _, db') => ({ data := .teamTag teamName, error := none }, db')
      | (.error e, db') => ({ data := .teamTag teamName, error := some e }, db')
  | _ => ({ data := .nothing, error := some .unknownJobType }, db)

/-- The job kinds `handleJob` knows. -/
def knownJobTypes : List String :=
  ["create_pr", "merge_pr", "reassign_pr", "get_team", "set_user_active",
   "get_reviews", "deactivate_team"]

/-- Whether a job's payload carries every required parameter with the
required dynamic type for its (known) kind. -/
def payloadOK (job : Job) : Bool :=
  match job.type with
  | "create_pr" => (asPR (job.lookup "pr")).isSome
  | "merge_pr" => (asStr (job.lookup "pr_id")).isSome
  | "reassign_pr" =>
    (asStr (job.lookup "pr_id")).isSome && (asStr (job.lookup "old_user")).isSome
  | "get_team" => (asStr (job.lookup "team")).isSome
  | "set_user_active" =>
    (asStr (job.lookup "uid")).isSome && (asBool (job.lookup "active")).isSome
  | "get_reviews" => (asStr (job.lookup "uid")).isSome
  | "deactivate_team" => (asStr (job.lookup "team_name")).isSome
  | _ => false

/-- Dispatcher state: the stop signal (`s.stopped` closed) and the bounded
job queue (`s.jobs`, capacity 200 in `NewService`). -/
structure Dispatcher where
  stopped : Bool
  queue : List Job
  capacity : Nat
deriving Repr, DecidableEq

/-- The outcome of one `EnqueueJob` call: the job was placed on the queue,
or it was rejected with an error result; `delivered` records whether that
result reached the caller (it does exactly when a reply channel was provided
and can receive — otherwise the non-blocking send drops it). -/
inductive EnqueueOutcome where
  | accepted
  | rejected (e : Err) (delivered : Bool)
deriving Repr, DecidableEq

/-- `EnqueueJob`: if a shutdown is in progress, reject with
`context.Canceled` (non-blocking send to the caller) and never queue;
otherwise try a non-blocking enqueue; a full queue rejects with
`ErrJobQueueFull` (again a non-blocking send).  The function is total: the
caller is never blocked. -/
def enqueueJob (d : Dispatcher) (j : Job) (callerReady : Bool) :
    Dispatcher × EnqueueOutcome :=
  if d.stopped then
    (d, .rejected .canceled (j.hasRespCh && callerReady))
  else if d.queue.length < d.capacity then
    ({ d with queue := d.queue ++ [j] }, .accepted)
  else
    (d, .rejected .jobQueueFull (j.hasRespCh && callerReady))

/-! ## Store well-formedness

Facts maintained by the schema (`migrations.sql`) that some theorems need:
statuses are `OPEN`/`MERGED`, and the `pr_reviewers` foreign key towards
`pull_requests`. -/

/-- Every stored status is `OPEN` or `MERGED`. -/
def statusOK (db : DB) : Prop :=
  ∀ p ∈ db.prs, p.status = "OPEN" ∨ p.status = "MERGED"

instance (db : DB) : Decidable (statusOK db) := by
  unfold statusOK; infer_instance

/-- Foreign key `pr_reviewers.pull_request_id → pull_requests`. -/
def revPRIntegrity (db : DB) : Prop :=
  ∀ p ∈ db.reviewers, ∃ row ∈ db.prs, row.pullRequestID = p.1

instance (db : DB) : Decidable (revPRIntegrity db) := by
  unfold revPRIntegrity; infer_instance

/-! ## Spec-side variant for the refinement check of claim C2

The spec asserts the `DeactivateTeam` replacement pool is "sourced from the
PR's own author's team rather than the removed reviewer's prior team".  The
following clearly-named variant follows those words: it is the cascade's
single-shot replacement with the candidate pool drawn from the PR author's
team; everything else is unchanged.  It exists only to be compared with the
code's `reassignReviewer`/`deactivateTeam`. -/

/-- Spec-variant replacement: pool sourced from the PR's own author's team. -/
def reassignReviewerAuthorTeam (db : DB) (rs : List Nat) (prID oldUID : String) :
    Except Err (String × DB) × List Nat :=
  match db.getPR prID with
  | none => (.error .notFound, rs)
  | some pr =>
    match db.getUserTeam pr.authorID with
    | none => (.error .notFound, rs)
    | some authorTeam =>
      let cands := db.getActiveTeamMembersExcept authorTeam ""
      let avail := cands.filter (fun c => !(pr.assigned.any (fun a => a.userID == c)))
      if avail.isEmpty then (.error .noCandidate, rs)
      else
        let newUID := avail.getD (rs.headD 0 % avail.length) ""
        match db.replaceReviewer prID oldUID newUID with
        | (.error e, _) => (.error e, rs.tail)
        | (.ok _, db') => (.ok (newUID, db'), rs.tail)

/-- Spec-variant innermost cascade loop (same as `deactivateRevLoop` but
using the author-team-sourced replacement). -/
def deactivateRevLoopAuthor (db : DB) (rs : List Nat) (prID : String) :
    List PRReviewer → DB × List Nat
  | [] => (db, rs)
  | rev :: rest =>
    match db.getUser rev.userID with
    | none => deactivateRevLoopAuthor db rs prID rest
    | some user =>
      if user.isActive then deactivateRevLoopAuthor db rs prID rest
      else match reassignReviewerAuthorTeam db rs prID rev.userID with
      | (.error _, rs') => deactivateRevLoopAuthor db rs' prID rest
      | (.ok (_, db'), rs') => deactivateRevLoopAuthor db' rs' prID rest

/-- Spec-variant middle cascade loop. -/
def deactivatePRLoopAuthor (db : DB) (rs : List Nat) :
    List PullRequestShort → DB × List Nat
  | [] => (db, rs)
  | s :: rest =>
    match db.getPR s.pullRequestID with
    | none => deactivatePRLoopAuthor db rs rest
    | some pr =>
      if pr.status != "OPEN" then deactivatePRLoopAuthor db rs rest
      else
        let (db', rs') := deactivateRevLoopAuthor db rs s.pullRequestID pr.assigned
        deactivatePRLoopAuthor db' rs' rest

/-- Spec-variant outer cascade loop. -/
def deactivateMemberLoopAuthor (db : DB) (rs : List Nat) :
    List TeamMember → DB × List Nat
  | [] => (db, rs)
  | m :: rest =>
    let prs := db.getPRsByReviewer m.userID
    let (db', rs') := deactivatePRLoopAuthor db rs prs
    deactivateMemberLoopAuthor db' rs' rest

/-- Spec-variant `DeactivateTeam` (replacement pool from each PR author's
team). -/
def deactivateTeamAuthorTeam (db : DB) (rs : List Nat) (teamName : String) :
    Except Err Unit × DB :=
  match getTeamSvc db teamName with
  | .error e => (.error e, db)
  | .ok team =>
    match db.setTeamActive teamName false with
    | .error e => (.error e, db)
    | .ok db1 =>
      let (db2, _) := deactivateMemberLoopAuthor db1 rs team.members
      (.ok (), db2)

/-! ## Concrete stores for counterexamples and witnesses -/

/-- Team `A` = {`u1` (author of `pr1`), `u2` (sole reviewer of `pr1`)};
`pr1` is OPEN.  Deactivating `A` leaves `u2`'s now-inactive assignment in
place: the single-shot replacement finds no candidate. -/
def c7db : DB :=
  ⟨[⟨"u1", "U1", "A", true⟩, ⟨"u2", "U2", "A", true⟩],
   [⟨"pr1", "T", "u1", "OPEN", true, 0, none⟩],
   [("pr1", "u2")]⟩

/-- `pr1`'s author `u3` is in team `B`; its sole reviewer `u2` is in team
`A`.  Deactivating `A` exercises the replacement-pool sourcing: the code
pools from `A`, the spec's words pool from `B`. -/
def c2db : DB :=
  ⟨[⟨"u1", "U1", "A", true⟩, ⟨"u2", "U2", "A", true⟩, ⟨"u3", "U3", "B", true⟩],
   [⟨"pr1", "T", "u3", "OPEN", true, 0, none⟩],
   [("pr1", "u2")]⟩

/-- A store whose open `pr1` (author `u1`, reviewer `u2`) also has `u4`
active in the same team: `Reassign pr1 u2` succeeds. -/
def wReassignDB : DB :=
  ⟨[⟨"u1", "U1", "A", true⟩, ⟨"u2", "U2", "A", true⟩, ⟨"u4", "U4", "A", true⟩],
   [⟨"pr1", "T", "u1", "OPEN", true, 0, none⟩],
   [("pr1", "u2")]⟩

/-- A store with a merged `pr1` (reviewer `u2`). -/
def wMergedDB : DB :=
  ⟨[⟨"u1", "U1", "A", true⟩, ⟨"u2", "U2", "A", true⟩],
   [⟨"pr1", "T", "u1", "MERGED", true, 0, some 3⟩],
   [("pr1", "u2")]⟩

/-- A store with an open `pr1` (author `u1`, sole reviewer `u2`), used to
exercise `MergePR` twice. -/
def wMergeDB : DB :=
  ⟨[⟨"u1", "U1", "A", true⟩, ⟨"u2", "U2", "A", true⟩],
   [⟨"pr1", "T", "u1", "OPEN", true, 0, none⟩],
   [("pr1", "u2")]⟩

/-- Team `T` = {`a` (assigned to `pr2`), `b` (active, unassigned)}: a
`reassignReviewer` call drawing from `T` succeeds with `b`. -/
def wPoolDB : DB :=
  ⟨[⟨"a", "A1", "T", true⟩, ⟨"b", "B1", "T", true⟩],
   [⟨"pr2", "N", "a", "OPEN", true, 0, none⟩],
   [("pr2", "a")]⟩

/-- Author `u1` of the yet-uncreated `prX` is in team `A` with one active
candidate `c1`: `CreatePR` succeeds with that single reviewer. -/
def wCreateDB : DB :=
  ⟨[⟨"u1", "U1", "A", true⟩, ⟨"c1", "C1", "A", true⟩], [], []⟩

/-- The input pull request for the `CreatePR` witness. -/
def wCreatePRIn : PullRequest :=
  { pullRequestID := "prX", pullRequestName := "T", authorID := "u1",
    status := "", needMoreReviewers := false, createdAt := 0, mergedAt := none,
    assigned := [] }

/-- A lone author with no other team member: zero eligible candidates. -/
def wLoneDB : DB := ⟨[⟨"u1", "U1", "A", true⟩], [], []⟩

/-- The record `CreatePR` returns at `wCreateDB` for `wCreatePRIn`. -/
def wCreatedPR : PullRequest :=
  { pullRequestID := "prX", pullRequestName := "T", authorID := "u1",
    status := "OPEN", needMoreReviewers := true, createdAt := 5,
    mergedAt := none, assigned := [⟨"c1", "C1", true⟩] }

/-- The store after that `CreatePR`. -/
def wCreateDBAfter : DB :=
  ⟨[⟨"u1", "U1", "A", true⟩, ⟨"c1", "C1", "A", true⟩],
   [⟨"prX", "T", "u1", "OPEN", true, 5, none⟩],
   [("prX", "c1")]⟩

/-- A store containing an active user whose id is the empty string (such a
user is creatable: `AddTeam`'s validators check only the team name and
duplicate member ids, never that a member id is non-empty).  `pr1` is OPEN
with the single reviewer `u2`. -/
def c10db : DB :=
  ⟨[⟨"u1", "U1", "A", true⟩, ⟨"u2", "U2", "A", true⟩, ⟨"", "ANON", "A", true⟩],
   [⟨"pr1", "T", "u1", "OPEN", true, 0, none⟩],
   [("pr1", "u2")]⟩

/-! ## Helper lemmas -/

/-- An in-range `getD` retrieves a list member. -/
lemma getD_mem {α : Type _} : ∀ (l : List α) (n : Nat) (d : α),
    n < l.length → l.getD n d ∈ l
  | a :: _, 0, _, _ => List.mem_cons_self a _
  | a :: l, n + 1, d, h =>
    List.mem_cons_of_mem a (getD_mem l n d (Nat.lt_of_succ_lt_succ h))

/-- `refreshAssigned` only touches the `isActive` flags of the local copy;
the reviewer user ids are untouched. -/
lemma refreshAssigned_userID_map (db : DB) (pr : PullRequest) :
    (refreshAssigned db pr).assigned.map (fun r => r.userID)
      = pr.assigned.map (fun r => r.userID) := by
  unfold refreshAssigned
  simp only [List.map_map]
  congr 1
  funext r
  simp only [Function.comp_apply]
  cases db.getUser r.userID <;> rfl

/-- The status of the locally refreshed copy. -/
lemma refreshAssigned_status (db : DB) (pr : PullRequest) :
    (refreshAssigned db pr).status = pr.status := rfl

/-- Assignment membership tests agree between the refreshed local copy and
the fetched record. -/
lemma refreshAssigned_any (db : DB) (pr : PullRequest) (x : String) :
    (refreshAssigned db pr).assigned.any (fun r => r.userID == x)
      = pr.assigned.any (fun r => r.userID == x) := by
  unfold refreshAssigned
  simp only [List.any_map]
  congr 1
  funext r
  simp only [Function.comp_apply]
  cases db.getUser r.userID <;> rfl

/-- The `Reassign` candidate pool is insensitive to the local refresh. -/
lemma reassignPool_refresh (db : DB) (pr : PullRequest) (o t : String) :
    reassignPool db (refreshAssigned db pr) o t = reassignPool db pr o t := by
  unfold reassignPool
  apply List.filter_congr
  intro c _
  rw [refreshAssigned_any]

/-! ## Claim C8: EnqueueJob rejection semantics -/

/-- C8: `EnqueueJob` never blocks the caller.  After shutdown has begun, the
job is rejected synchronously with a `Canceled` result — delivered exactly
when the caller provided a reply channel that can receive — and is never
queued (the dispatcher state is unchanged).  While the queue is full, the
job is rejected with a `QueueFull` result, delivered to a listening caller
and silently dropped otherwise, again without queueing. -/
theorem enqueueJob_reject_semantics :
    (∀ (d : Dispatcher) (j : Job) (ready : Bool), d.stopped = true →
      enqueueJob d j ready = (d, .rejected .canceled (j.hasRespCh && ready))) ∧
    (∀ (d : Dispatcher) (j : Job) (ready : Bool), d.stopped = false →
      d.capacity ≤ d.queue.length →
      enqueueJob d j ready = (d, .rejected .jobQueueFull (j.hasRespCh && ready))) := by
  constructor
  · intro d j ready h
    simp [enqueueJob, h]
  · intro d j ready h hfull
    rw [enqueueJob, if_neg (by simp [h]), if_neg (by omega)]

/-- C8 witness: a stopped dispatcher rejects with `Canceled` (delivered, the
caller listening), and a full one-slot dispatcher rejects with
`QueueFull`. -/
theorem enqueueJob_reject_semantics_witness :
    enqueueJob ⟨true, [], 200⟩ ⟨false, "get_team", [], true⟩ true
      = (⟨true, [], 200⟩, .rejected .canceled true) ∧
    enqueueJob ⟨false, [⟨false, "get_team", [], true⟩], 1⟩
        ⟨false, "merge_pr", [], true⟩ true
      = (⟨false, [⟨false, "get_team", [], true⟩], 1⟩, .rejected .jobQueueFull true) :=
  ⟨enqueueJob_reject_semantics.1 _ _ _ rfl,
   enqueueJob_reject_semantics.2 _ _ _ rfl (by decide)⟩

/-! ## Claim C3: MergePR idempotence -/

/-- After the merge `UPDATE`, the row looked up for the merged id has status
`MERGED`. -/
lemma find?_merged_status (prID : String) (t : Nat) (l : List PRRow) (r : PRRow)
    (h : (l.map (fun p => if p.pullRequestID == prID then
        { p with status := "MERGED", mergedAt := some t } else p)).find?
      (fun p => p.pullRequestID == prID) = some r) :
    r.status = "MERGED" := by
  have hq := List.find?_some h
  have hmem := List.mem_of_find?_eq_some h
  rcases List.mem_map.mp hmem with ⟨p, _, hfp⟩
  by_cases hp : p.pullRequestID = prID
  · rw [← hfp, if_pos (by simpa using hp)]
  · rw [← hfp, if_neg (by simpa using hp)] at hq
    exact absurd (by simpa using hq) hp

/-- A pull request fetched from a store right after the merge update of its
id carries status `MERGED`. -/
lemma getPR_after_merge_status (db : DB) (prID : String) (t : Nat)
    (pr : PullRequest)
    (h : (({ db with prs := db.prs.map (fun p =>
        if p.pullRequestID == prID then
          { p with status := "MERGED", mergedAt := some t } else p) } : DB)).getPR
        prID = some pr) :
    pr.status = "MERGED" := by
  unfold DB.getPR at h
  rcases Option.map_eq_some'.mp h with ⟨row, hrow, hpr⟩
  unfold DB.getPRRow at hrow
  dsimp only at hrow
  have hst := find?_merged_status prID t db.prs row hrow
  rw [← hpr]
  exact hst

/-- A successful repo `MergePR` returns the record the updated store holds,
and that record is `MERGED`. -/
lemma mergePRRepo_some (db : DB) (prID : String) (t : Nat) (pr : PullRequest)
    (db' : DB) (h : db.mergePRRepo prID t = some (pr, db')) :
    db'.getPR prID = some pr ∧ pr.status = "MERGED" := by
  unfold DB.mergePRRepo at h
  dsimp only at h
  rcases Option.map_eq_some'.mp h with ⟨a, ha, hpair⟩
  have haeq : a = pr := congrArg Prod.fst hpair
  have hdbeq := congrArg Prod.snd hpair
  dsimp only at hdbeq
  subst haeq
  constructor
  · rw [← hdbeq]
    exact ha
  · exact getPR_after_merge_status db prID t a ha

/-- `MergePR` on an already-merged record returns it unchanged. -/
lemma mergePR_of_merged (db : DB) (t : Nat) (prID : String) (pr : PullRequest)
    (h : db.getPR prID = some pr) (hm : pr.status = "MERGED") :
    mergePR db t prID = (.ok pr, db) := by
  simp [mergePR, h, hm]

/-- C3: `MergePR` is idempotent.  Whenever a first `MergePR` succeeds, the
returned record is `MERGED`, and a second `MergePR` on the same id succeeds
without error and returns the very same record — original merge timestamp
and reviewer set included — leaving the store untouched. -/
theorem mergePR_idempotent (db : DB) (t1 t2 : Nat) (prID : String)
    (pr1 : PullRequest) (db1 : DB)
    (h : mergePR db t1 prID = (.ok pr1, db1)) :
    pr1.status = "MERGED" ∧ mergePR db1 t2 prID = (.ok pr1, db1) := by
  unfold mergePR at h
  split at h
  · exact absurd (congrArg Prod.fst h) (by simp)
  next pr hg =>
    split at h
    next hm =>
      have hpr : pr = pr1 := Except.ok.inj (congrArg Prod.fst h)
      have hdb : db = db1 := congrArg Prod.snd h
      have hm' : pr.status = "MERGED" := by simpa using hm
      refine ⟨hpr ▸ hm', ?_⟩
      rw [← hpr, ← hdb]
      exact mergePR_of_merged db t2 prID pr hg hm'
    next hm =>
      split at h
      · exact absurd (congrArg Prod.fst h) (by simp)
      next merged dbU hrepo =>
        have hpr : merged = pr1 := Except.ok.inj (congrArg Prod.fst h)
        have hdb : dbU = db1 := congrArg Prod.snd h
        obtain ⟨hget, hst⟩ := mergePRRepo_some db prID t1 merged dbU hrepo
        refine ⟨hpr ▸ hst, ?_⟩
        rw [← hpr, ← hdb]
        exact mergePR_of_merged dbU t2 prID merged hget hst

/-- C3 witness: merging the open `pr1` of `wMergeDB` at time 7 and then
again at time 9 returns the identical `MERGED` record both times. -/
theorem mergePR_idempotent_witness :
    ({ pullRequestID := "pr1", pullRequestName := "T", authorID := "u1",
       status := "MERGED", needMoreReviewers := true, createdAt := 0,
       mergedAt := some 7,
       assigned := [⟨"u2", "U2", true⟩] } : PullRequest).status = "MERGED" ∧
    mergePR
      (⟨[⟨"u1", "U1", "A", true⟩, ⟨"u2", "U2", "A", true⟩],
        [⟨"pr1", "T", "u1", "MERGED", true, 0, some 7⟩],
        [("pr1", "u2")]⟩ : DB) 9 "pr1"
      = (.ok { pullRequestID := "pr1", pullRequestName := "T", authorID := "u1",
               status := "MERGED", needMoreReviewers := true, createdAt := 0,
               mergedAt := some 7, assigned := [⟨"u2", "U2", true⟩] },
         ⟨[⟨"u1", "U1", "A", true⟩, ⟨"u2", "U2", "A", true⟩],
          [⟨"pr1", "T", "u1", "MERGED", true, 0, some 7⟩],
          [("pr1", "u2")]⟩) :=
  mergePR_idempotent wMergeDB 7 9 "pr1" _ _ rfl

/-! ## Reassign: inversion helpers -/

/-- A `GetUser` hit is a `users` row with the looked-up id. -/
lemma getUser_mem (db : DB) (uid : String) (u : User)
    (h : db.getUser uid = some u) : u ∈ db.users ∧ u.userID = uid := by
  unfold DB.getUser at h
  exact ⟨List.mem_of_find?_eq_some h, by simpa using List.find?_some h⟩

/-- A member of the active-team-members query is a `users` row of that team,
active, with the queried id — and differs from a non-empty excluded id. -/
lemma mem_activeExcept (db : DB) (t e x : String)
    (h : x ∈ db.getActiveTeamMembersExcept t e) :
    (∃ u ∈ db.users, u.userID = x ∧ u.teamName = t ∧ u.isActive = true) ∧
      (e ≠ "" → x ≠ e) := by
  unfold DB.getActiveTeamMembersExcept at h
  rcases List.mem_map.mp h with ⟨u, hu, hux⟩
  have hcond := List.of_mem_filter hu
  have humem := List.mem_of_mem_filter hu
  simp only [Bool.and_eq_true, Bool.or_eq_true, beq_iff_eq, bne_iff_ne] at hcond
  obtain ⟨⟨hteam, hact⟩, hexc⟩ := hcond
  refine ⟨⟨u, humem, hux, hteam, hact⟩, ?_⟩
  intro hne
  rcases hexc with he | hne'
  · exact absurd he hne
  · rw [← hux]; exact hne'

/-- The fetched record's status is the status of a stored row. -/
lemma getPR_row_status (db : DB) (prID : String) (pr : PullRequest)
    (h : db.getPR prID = some pr) : ∃ row ∈ db.prs, pr.status = row.status := by
  unfold DB.getPR at h
  rcases Option.map_eq_some'.mp h with ⟨row, hrow, hpr⟩
  unfold DB.getPRRow at hrow
  exact ⟨row, List.mem_of_find?_eq_some hrow, by rw [← hpr]⟩

/-- Every assigned reviewer of a fetched record corresponds to a
`pr_reviewers` row of that pull request. -/
lemma getPR_assigned_mem (db : DB) (prID : String) (pr : PullRequest)
    (h : db.getPR prID = some pr) :
    ∀ r ∈ pr.assigned, (prID, r.userID) ∈ db.reviewers := by
  intro r hr
  unfold DB.getPR at h
  rcases Option.map_eq_some'.mp h with ⟨row, _, hpr⟩
  rw [← hpr] at hr
  dsimp only at hr
  rcases List.mem_filterMap.mp hr with ⟨p, hp, hg⟩
  rcases Option.map_eq_some'.mp hg with ⟨u, hu, hur⟩
  have hid : u.userID = p.2 := (getUser_mem db p.2 u hu).2
  have hr2 : r.userID = p.2 := by rw [← hur]; exact hid
  unfold DB.reviewersOf at hp
  have hmem := List.mem_of_mem_filter hp
  have hp1 : p.1 = prID := by simpa using List.of_mem_filter hp
  have : p = (prID, r.userID) := by
    cases p
    simp only [Prod.mk.injEq]
    exact ⟨hp1, hr2.symm⟩
  rw [← this]
  exact hmem

/-- Inversion of a successful `Reassign`: the checks passed, the chosen
replacement is the random pick from the candidate pool, and the atomic
replacement produced the final store. -/
lemma reassign_ok_inv (db : DB) (rnd : Nat) (prID oldUser : String)
    (res : PullRequest) (newUID : String) (db' : DB)
    (h : reassign db rnd prID oldUser = (.ok (res, newUID), db')) :
    ∃ pr teamName u, db.getPR prID = some pr ∧
      pr.status ≠ "MERGED" ∧
      pr.assigned.any (fun r => r.userID == oldUser) = true ∧
      db.getUser oldUser = some u ∧ u.isActive = true ∧
      db.getUserTeam oldUser = some teamName ∧
      reassignPool db pr oldUser teamName ≠ [] ∧
      newUID = (reassignPool db pr oldUser teamName).getD
        (rnd % (reassignPool db pr oldUser teamName).length) "" ∧
      ∃ pr1, db.replaceReviewer prID oldUser newUID = (.ok pr1, db') := by
  unfold reassign at h
  split at h
  · exact absurd (congrArg Prod.fst h) (by simp)
  next pr0 hg =>
    dsimp only at h
    split at h
    · exact absurd (congrArg Prod.fst h) (by simp)
    next hm =>
      split at h
      · exact absurd (congrArg Prod.fst h) (by simp)
      next hassigned =>
        split at h
        · exact absurd (congrArg Prod.fst h) (by simp)
        next u hu =>
          split at h
          · exact absurd (congrArg Prod.fst h) (by simp)
          next hact =>
            split at h
            · exact absurd (congrArg Prod.fst h) (by simp)
            next teamName hteam =>
              split at h
              · exact absurd (congrArg Prod.fst h) (by simp)
              next hempty =>
                refine ⟨pr0, teamName, u, hg, ?_, ?_, hu, ?_, hteam, ?_, ?_, ?_⟩
                · intro hcon
                  exact hm (by rw [refreshAssigned_status, hcon]; simp)
                · rw [← refreshAssigned_any db pr0 oldUser]
                  simpa using hassigned
                · simpa using hact
                · rw [← reassignPool_refresh db pr0 oldUser teamName]
                  intro hnil
                  rw [hnil] at hempty
                  exact hempty rfl
                · rw [← reassignPool_refresh db pr0 oldUser teamName]
                  unfold reassignCommit at h
                  split at h
                  · exact absurd (congrArg Prod.fst h) (by simp)
                  next nu hnu =>
                    split at h
                    · exact absurd (congrArg Prod.fst h) (by simp)
                    next hnact =>
                      split at h
                      next e db2 hrep =>
                        exact absurd (congrArg Prod.fst h) (by simp)
                      next pr1 db2 hrep =>
                        have := congrArg Prod.fst h
                        simp only at this
                        have h2 := Except.ok.inj this
                        exact (congrArg Prod.snd h2).symm
                · unfold reassignCommit at h
                  split at h
                  · exact absurd (congrArg Prod.fst h) (by simp)
                  next nu hnu =>
                    split at h
                    · exact absurd (congrArg Prod.fst h) (by simp)
                    next hnact =>
                      split at h
                      next e db2 hrep =>
                        exact absurd (congrArg Prod.fst h) (by simp)
                      next pr1 db2 hrep =>
                        have hfst := congrArg Prod.fst h
                        simp only at hfst
                        have h2 := Except.ok.inj hfst
                        have hdb2 : db2 = db' := congrArg Prod.snd h
                        have hnid : newUID =
                            (reassignPool db (refreshAssigned db pr0) oldUser
                              teamName).getD (rnd % (reassignPool db
                              (refreshAssigned db pr0) oldUser teamName).length) "" :=
                          (congrArg Prod.snd h2).symm
                        refine ⟨pr1, ?_⟩
                        rw [← hnid] at hrep
                        rw [hrep, hdb2]

/-! ## Claim C4: merge freeze -/

/-- C4: `Reassign` on a `MERGED` pull request fails with `ErrPRMerged` and
leaves the store — in particular the PR's reviewer set — unchanged; and any
successful `Reassign` was performed on a PR that was in state `OPEN`
(reviewer-set mutations happen only while `OPEN`). -/
theorem reassign_merge_freeze :
    (∀ (db : DB) (rnd : Nat) (prID oldUser : String) (pr : PullRequest),
      db.getPR prID = some pr → pr.status = "MERGED" →
      reassign db rnd prID oldUser = (.error .prMerged, db)) ∧
    (∀ (db : DB) (rnd : Nat) (prID oldUser : String) (res : PullRequest)
      (newUID : String) (db' : DB), statusOK db →
      reassign db rnd prID oldUser = (.ok (res, newUID), db') →
      ∃ pr, db.getPR prID = some pr ∧ pr.status = "OPEN") := by
  constructor
  · intro db rnd prID oldUser pr h1 h2
    simp [reassign, h1, refreshAssigned_status, h2]
  · intro db rnd prID oldUser res newUID db' hok h
    rcases reassign_ok_inv db rnd prID oldUser res newUID db' h with
      ⟨pr, teamName, u, hg, hnm, _⟩
    refine ⟨pr, hg, ?_⟩
    rcases getPR_row_status db prID pr hg with ⟨row, hrow, hst⟩
    rcases hok row hrow with hopen | hmerged
    · rw [hst, hopen]
    · exact absurd (hst.trans hmerged) hnm

/-- C4 witness: at `wMergedDB`, reassigning the merged `pr1` fails with the
merge-freeze error and leaves the store unchanged; at `wReassignDB`, the
successful reassignment happened on an `OPEN` record. -/
theorem reassign_merge_freeze_witness :
    reassign wMergedDB 0 "pr1" "u2" = (.error .prMerged, wMergedDB) ∧
    (∃ pr, wReassignDB.getPR "pr1" = some pr ∧ pr.status = "OPEN") :=
  ⟨reassign_merge_freeze.1 wMergedDB 0 "pr1" "u2"
      { pullRequestID := "pr1", pullRequestName := "T", authorID := "u1",
        status := "MERGED", needMoreReviewers := true, createdAt := 0,
        mergedAt := some 3, assigned := [⟨"u2", "U2", true⟩] } rfl rfl,
   reassign_merge_freeze.2 wReassignDB 0 "pr1" "u2"
      { pullRequestID := "pr1", pullRequestName := "T", authorID := "u1",
        status := "OPEN", needMoreReviewers := true, createdAt := 0,
        mergedAt := none, assigned := [⟨"u1", "U1", true⟩] } "u1"
      ⟨[⟨"u1", "U1", "A", true⟩, ⟨"u2", "U2", "A", true⟩, ⟨"u4", "U4", "A", true⟩],
       [⟨"pr1", "T", "u1", "OPEN", true, 0, none⟩],
       [("pr1", "u1")]⟩ (by decide) rfl⟩

/-! ## Claim C6: the replacement avoids the old and the already-assigned -/

/-- C6: a successful `Reassign(prId, oldReviewerId)` returns a replacement
that is neither `oldReviewerId` nor any user assigned to the PR at selection
time: the candidate pool excludes both. -/
theorem reassign_excludes_old_and_assigned (db : DB) (rnd : Nat)
    (prID oldUser : String) (pr res : PullRequest) (newUID : String) (db' : DB)
    (hpr : db.getPR prID = some pr)
    (h : reassign db rnd prID oldUser = (.ok (res, newUID), db')) :
    newUID ≠ oldUser ∧ ∀ r ∈ pr.assigned, r.userID ≠ newUID := by
  rcases reassign_ok_inv db rnd prID oldUser res newUID db' h with
    ⟨pr0, teamName, u, hg, _, _, _, _, _, hne, hnid, _⟩
  have hpr0 : pr0 = pr := by
    rw [hpr] at hg
    exact (Option.some.inj hg).symm
  subst hpr0
  have hlen : 0 < (reassignPool db pr0 oldUser teamName).length :=
    List.length_pos.mpr hne
  have hmem : newUID ∈ reassignPool db pr0 oldUser teamName := by
    rw [hnid]
    exact getD_mem _ _ _ (Nat.mod_lt _ hlen)
  unfold reassignPool at hmem
  have hcond := List.of_mem_filter hmem
  simp only [Bool.and_eq_true, Bool.not_eq_true'] at hcond
  obtain ⟨hold, hany⟩ := hcond
  constructor
  · simpa using hold
  · intro r hr
    have := List.any_eq_false.mp hany r hr
    intro hcon
    exact this (by simp [hcon])

/-- C6 witness: the replacement chosen at `wReassignDB` is `u1`, which is
neither the removed `u2` nor any previously assigned reviewer. -/
theorem reassign_excludes_old_and_assigned_witness :
    ("u1" : String) ≠ "u2" ∧
    ∀ r ∈ [(⟨"u2", "U2", true⟩ : PRReviewer)], r.userID ≠ "u1" :=
  reassign_excludes_old_and_assigned wReassignDB 0 "pr1" "u2"
    { pullRequestID := "pr1", pullRequestName := "T", authorID := "u1",
      status := "OPEN", needMoreReviewers := true, createdAt := 0,
      mergedAt := none, assigned := [⟨"u2", "U2", true⟩] }
    { pullRequestID := "pr1", pullRequestName := "T", authorID := "u1",
      status := "OPEN", needMoreReviewers := true, createdAt := 0,
      mergedAt := none, assigned := [⟨"u1", "U1", true⟩] } "u1"
    ⟨[⟨"u1", "U1", "A", true⟩, ⟨"u2", "U2", "A", true⟩, ⟨"u4", "U4", "A", true⟩],
     [⟨"pr1", "T", "u1", "OPEN", true, 0, none⟩],
     [("pr1", "u1")]⟩ rfl rfl

/-! ## Claim C5: Reassign error paths -/

/-- C5: on an existing non-merged PR with `oldUser` currently assigned:
an inactive origin fails `UserInactive`; an active origin with an empty
candidate pool fails `NoCandidate`; and in the commit phase, a chosen
candidate that the pre-commit re-check finds missing or inactive (against
the storage state at commit time) fails `NoCandidate` — single-shot, no
retry, no store change. -/
theorem reassign_error_paths :
    (∀ (db : DB) (rnd : Nat) (prID oldUser : String) (pr : PullRequest) (u : User),
      db.getPR prID = some pr → pr.status ≠ "MERGED" →
      pr.assigned.any (fun r => r.userID == oldUser) = true →
      db.getUser oldUser = some u → u.isActive = false →
      reassign db rnd prID oldUser = (.error .userInactive, db)) ∧
    (∀ (db : DB) (rnd : Nat) (prID oldUser : String) (pr : PullRequest) (u : User),
      db.getPR prID = some pr → pr.status ≠ "MERGED" →
      pr.assigned.any (fun r => r.userID == oldUser) = true →
      db.getUser oldUser = some u → u.isActive = true →
      reassignPool db pr oldUser u.teamName = [] →
      reassign db rnd prID oldUser = (.error .noCandidate, db)) ∧
    (∀ (db : DB) (prID oldUser newUID : String),
      (db.getUser newUID = none ∨
        ∃ nu, db.getUser newUID = some nu ∧ nu.isActive = false) →
      reassignCommit db prID oldUser newUID = (.error .noCandidate, db)) := by
  refine ⟨?_, ?_, ?_⟩
  · intro db rnd prID oldUser pr u h1 h2 h3 h4 h5
    have hb1 : ((refreshAssigned db pr).status == "MERGED") = false := by
      rw [refreshAssigned_status]
      simpa using h2
    have hb2 : (refreshAssigned db pr).assigned.any
        (fun r => r.userID == oldUser) = true := by
      rw [refreshAssigned_any]
      exact h3
    simp [reassign, h1, hb1, hb2, h4, h5]
  · intro db rnd prID oldUser pr u h1 h2 h3 h4 h5 h6
    have hb1 : ((refreshAssigned db pr).status == "MERGED") = false := by
      rw [refreshAssigned_status]
      simpa using h2
    have hb2 : (refreshAssigned db pr).assigned.any
        (fun r => r.userID == oldUser) = true := by
      rw [refreshAssigned_any]
      exact h3
    have hteam : db.getUserTeam oldUser = some u.teamName := by
      unfold DB.getUserTeam
      rw [h4]
      rfl
    have hb3 : reassignPool db (refreshAssigned db pr) oldUser u.teamName = [] := by
      rw [reassignPool_refresh]
      exact h6
    simp [reassign, h1, hb1, hb2, h4, h5, hteam, hb3]
  · intro db prID oldUser newUID h
    rcases h with h | ⟨nu, hnu, hact⟩
    · simp [reassignCommit, h]
    · simp [reassignCommit, hnu, hact]

/-- C5 witness: an inactive origin reviewer (store with `u2` inactive), an
empty pool (origin's team has no other active member), and a commit-phase
re-check against a store lacking the chosen candidate. -/
theorem reassign_error_paths_witness :
    reassign
      (⟨[⟨"u1", "U1", "A", true⟩, ⟨"u2", "U2", "A", false⟩],
        [⟨"pr1", "T", "u1", "OPEN", true, 0, none⟩],
        [("pr1", "u2")]⟩ : DB) 0 "pr1" "u2" = (.error .userInactive,
      ⟨[⟨"u1", "U1", "A", true⟩, ⟨"u2", "U2", "A", false⟩],
       [⟨"pr1", "T", "u1", "OPEN", true, 0, none⟩],
       [("pr1", "u2")]⟩) ∧
    reassign
      (⟨[⟨"u1", "U1", "B", true⟩, ⟨"u2", "U2", "A", true⟩],
        [⟨"pr1", "T", "u1", "OPEN", true, 0, none⟩],
        [("pr1", "u2")]⟩ : DB) 0 "pr1" "u2" = (.error .noCandidate,
      ⟨[⟨"u1", "U1", "B", true⟩, ⟨"u2", "U2", "A", true⟩],
       [⟨"pr1", "T", "u1", "OPEN", true, 0, none⟩],
       [("pr1", "u2")]⟩) ∧
    reassignCommit wMergeDB "pr1" "u2" "zz" = (.error .noCandidate, wMergeDB) :=
  ⟨reassign_error_paths.1 _ 0 "pr1" "u2"
      { pullRequestID := "pr1", pullRequestName := "T", authorID := "u1",
        status := "OPEN", needMoreReviewers := true, createdAt := 0,
        mergedAt := none, assigned := [⟨"u2", "U2", false⟩] }
      ⟨"u2", "U2", "A", false⟩ rfl (by decide) rfl rfl rfl,
   reassign_error_paths.2.1 _ 0 "pr1" "u2"
      { pullRequestID := "pr1", pullRequestName := "T", authorID := "u1",
        status := "OPEN", needMoreReviewers := true, createdAt := 0,
        mergedAt := none, assigned := [⟨"u2", "U2", true⟩] }
      ⟨"u2", "U2", "A", true⟩ rfl (by decide) rfl rfl rfl rfl,
   reassign_error_paths.2.2 wMergeDB "pr1" "u2" "zz" (.inl rfl)⟩

/-! ## Claim C10: Reassign preserves the reviewer count -/

/-- Splitting the reviewer rows of one pull request by whether they carry
the old reviewer. -/
lemma filter_split_count (prID old : String) (l : List (String × String)) :
    (l.filter (fun p => p.1 == prID)).length
      = (l.filter (fun p => p.1 == prID && p.2 == old)).length
        + (l.filter (fun p => p.1 == prID && !(p.2 == old))).length := by
  induction l with
  | nil => simp
  | cons a l ih =>
    cases h1 : (a.1 == prID) <;> cases h2 : (a.2 == old) <;>
      simp [List.filter_cons, h1, h2, ih] <;> omega

/-- Deleting the old reviewer's rows and then selecting the PR's rows is
selecting the PR's rows that are not the old reviewer's. -/
lemma filter_after_delete (prID old : String) (l : List (String × String)) :
    (l.filter (fun p => !(p.1 == prID && p.2 == old))).filter
        (fun p => p.1 == prID)
      = l.filter (fun p => p.1 == prID && !(p.2 == old)) := by
  rw [List.filter_filter]
  congr 1
  funext p
  cases h1 : (p.1 == prID) <;> cases h2 : (p.2 == old) <;> simp [h1, h2]

/-- In a duplicate-free reviewer table containing the pair, exactly one row
carries the (pr, old reviewer) pair. -/
lemma filter_eq_pair_singleton (prID old : String) :
    ∀ (l : List (String × String)), l.Nodup → (prID, old) ∈ l →
      (l.filter (fun p => p.1 == prID && p.2 == old)).length = 1 := by
  intro l
  induction l with
  | nil => intro _ hm; simp at hm
  | cons a l ih =>
    intro hnd hm
    have hpair : ∀ p : String × String,
        ((p.1 == prID && p.2 == old) = true) ↔ p = (prID, old) := by
      intro p
      cases p
      simp [Prod.mk.injEq]
    rcases List.mem_cons.mp hm with h | h
    · have ha : (a.1 == prID && a.2 == old) = true := (hpair a).mpr h.symm
      rw [List.filter_cons, if_pos ha]
      have hnotin : (prID, old) ∉ l := by
        rw [h]
        exact (List.nodup_cons.mp hnd).1
      have hnil : l.filter (fun p => p.1 == prID && p.2 == old) = [] := by
        rw [List.filter_eq_nil_iff]
        intro p hp hcon
        exact hnotin ((hpair p).mp hcon ▸ hp)
      rw [hnil]
      rfl
    · by_cases ha : (a.1 == prID && a.2 == old) = true
      · exact absurd h ((hpair a).mp ha ▸ (List.nodup_cons.mp hnd).1)
      · rw [List.filter_cons, if_neg ha]
        exact ih (List.nodup_cons.mp hnd).2 h

/-- Inversion of a successful repo `ReplaceReviewer` with non-empty ids: the
transaction committed exactly the delete of the old pair and the insert of
the new pair. -/
lemma replaceReviewer_ok_inv (db : DB) (prID oldUID newUID : String)
    (pr1 : PullRequest) (db' : DB)
    (hold : oldUID ≠ "") (hnew : newUID ≠ "")
    (h : db.replaceReviewer prID oldUID newUID = (.ok pr1, db')) :
    db' = { db with reviewers :=
      (db.reviewers.filter (fun p => !(p.1 == prID && p.2 == oldUID)))
        ++ [(prID, newUID)] } := by
  have hb1 : (oldUID == "") = false := by simpa using hold
  have hb2 : (newUID == "") = false := by simpa using hnew
  unfold DB.replaceReviewer at h
  rw [hb1, hb2] at h
  simp only [Bool.false_and, Bool.false_eq_true, if_false] at h
  split at h
  next hguard =>
    split at h
    next pr hget =>
      exact (congrArg Prod.snd h).symm
    next hget =>
      exact absurd (congrArg Prod.fst h) (by simp)
  next hguard =>
    exact absurd (congrArg Prod.fst h) (by simp)

/-- C10 counterexample: at `c10db` — an active user with the empty-string id
exists, which `AddTeam` never prevents — `Reassign(pr1, u2)` succeeds with
the empty-id user as the chosen replacement, `ReplaceReviewer` deletes the
old row but skips the insert (`if newUID != ""`), and the pull request's
reviewer count drops from 1 to 0: a successful `Reassign` that does not
leave the reviewer count unchanged, refuting the claim as stated. -/
theorem reassign_count_drop_cex :
    reassign c10db 1 "pr1" "u2" = (.ok
      ({ pullRequestID := "pr1", pullRequestName := "T", authorID := "u1",
         status := "OPEN", needMoreReviewers := true, createdAt := 0,
         mergedAt := none, assigned := [] }, ""),
      ⟨[⟨"u1", "U1", "A", true⟩, ⟨"u2", "U2", "A", true⟩, ⟨"", "ANON", "A", true⟩],
       [⟨"pr1", "T", "u1", "OPEN", true, 0, none⟩],
       []⟩) ∧
    (c10db.reviewersOf "pr1").length = 1 ∧
    (((⟨[⟨"u1", "U1", "A", true⟩, ⟨"u2", "U2", "A", true⟩, ⟨"", "ANON", "A", true⟩],
        [⟨"pr1", "T", "u1", "OPEN", true, 0, none⟩],
        []⟩ : DB)).reviewersOf "pr1").length = 0 :=
  ⟨rfl, rfl, rfl⟩

/-- C10 (amended): a successful `Reassign` on a store whose users all have
non-empty ids leaves the pull request's reviewer count unchanged — the
storage replacement then removes exactly the old reviewer's row and inserts
exactly the new one's — so the at-most-2 bound carries over.  The
non-empty-id hypothesis is genuinely needed and not guaranteed by the
system: `AddTeam` never validates member ids, and `reassign_count_drop_cex`
above shows the count dropping when the chosen replacement's id is the empty
string (`ReplaceReviewer` skips the insert for an empty `newUID`).
Duplicate-freeness of the reviewer table is the schema's primary key. -/
theorem reassign_preserves_reviewer_count (db : DB) (rnd : Nat)
    (prID oldUser : String) (res : PullRequest) (newUID : String) (db' : DB)
    (hnd : db.reviewers.Nodup)
    (hids : ∀ u ∈ db.users, u.userID ≠ "")
    (h : reassign db rnd prID oldUser = (.ok (res, newUID), db')) :
    (db'.reviewersOf prID).length = (db.reviewersOf prID).length ∧
    ((db.reviewersOf prID).length ≤ 2 → (db'.reviewersOf prID).length ≤ 2) := by
  rcases reassign_ok_inv db rnd prID oldUser res newUID db' h with
    ⟨pr, teamName, u, hg, _, hany, hu, _, _, hne, hnid, pr1, hrep⟩
  have hold : oldUser ≠ "" := by
    obtain ⟨humem, huid⟩ := getUser_mem db oldUser u hu
    rw [← huid]
    exact hids u humem
  have hnewne : newUID ≠ "" := by
    have hlen : 0 < (reassignPool db pr oldUser teamName).length :=
      List.length_pos.mpr hne
    have hmem : newUID ∈ reassignPool db pr oldUser teamName := by
      rw [hnid]
      exact getD_mem _ _ _ (Nat.mod_lt _ hlen)
    unfold reassignPool at hmem
    have hmem2 := List.mem_of_mem_filter hmem
    rcases (mem_activeExcept db teamName "" newUID hmem2).1 with ⟨w, hw, hwid, _⟩
    rw [← hwid]
    exact hids w hw
  have hdb' := replaceReviewer_ok_inv db prID oldUser newUID pr1 db' hold hnewne hrep
  -- the old pair is a stored row
  have holdmem : (prID, oldUser) ∈ db.reviewers := by
    rcases List.any_eq_true.mp hany with ⟨r, hr, hrid⟩
    have := getPR_assigned_mem db prID pr hg r hr
    rwa [show r.userID = oldUser by simpa using hrid] at this
  have hsplit := filter_split_count prID oldUser db.reviewers
  have hone := filter_eq_pair_singleton prID oldUser db.reviewers hnd holdmem
  have hcount : (db'.reviewersOf prID).length
      = (db.reviewersOf prID).length := by
    rw [hdb']
    unfold DB.reviewersOf
    dsimp only
    rw [List.filter_append, filter_after_delete]
    have htail : ([(prID, newUID)].filter (fun p => p.1 == prID)).length = 1 := by
      simp
    rw [List.length_append, htail, hsplit, hone]
    omega
  exact ⟨hcount, fun hb => hcount ▸ hb⟩

/-- C10 witness: the successful reassignment at `wReassignDB` keeps the
single-reviewer count at one, within the bound. -/
theorem reassign_preserves_reviewer_count_witness :
    ((⟨[⟨"u1", "U1", "A", true⟩, ⟨"u2", "U2", "A", true⟩, ⟨"u4", "U4", "A", true⟩],
       [⟨"pr1", "T", "u1", "OPEN", true, 0, none⟩],
       [("pr1", "u1")]⟩ : DB).reviewersOf "pr1").length
      = (wReassignDB.reviewersOf "pr1").length ∧
    ((wReassignDB.reviewersOf "pr1").length ≤ 2 →
      ((⟨[⟨"u1", "U1", "A", true⟩, ⟨"u2", "U2", "A", true⟩, ⟨"u4", "U4", "A", true⟩],
         [⟨"pr1", "T", "u1", "OPEN", true, 0, none⟩],
         [("pr1", "u1")]⟩ : DB).reviewersOf "pr1").length ≤ 2) :=
  reassign_preserves_reviewer_count wReassignDB 0 "pr1" "u2"
    { pullRequestID := "pr1", pullRequestName := "T", authorID := "u1",
      status := "OPEN", needMoreReviewers := true, createdAt := 0,
      mergedAt := none, assigned := [⟨"u1", "U1", true⟩] } "u1"
    ⟨[⟨"u1", "U1", "A", true⟩, ⟨"u2", "U2", "A", true⟩, ⟨"u4", "U4", "A", true⟩],
     [⟨"pr1", "T", "u1", "OPEN", true, 0, none⟩],
     [("pr1", "u1")]⟩ (by decide) (by decide) rfl

/-! ## Claim C1: CreatePR reviewer bounds -/

/-- The selection loop never takes the reviewer list past two. -/
lemma selectLoop_length_le (db : DB) (fuel : Nat) :
    ∀ (rs : List Nat) (cands : List String) (sel : List PRReviewer),
      sel.length ≤ 2 → (selectLoop db fuel rs cands sel).length ≤ 2 := by
  induction fuel with
  | zero =>
    intro rs cands sel h
    rw [selectLoop.eq_1]
    exact h
  | succ fuel ih =>
    intro rs cands sel h
    cases cands with
    | nil =>
      rw [selectLoop.eq_2]
      split <;> exact h
    | cons c cs =>
      rw [selectLoop.eq_3]
      split
      · exact h
      next hge =>
        dsimp only
        split
        · exact ih _ _ _ h
        next u hu =>
          split
          · apply ih
            rw [List.length_append]
            have hlt : sel.length < 2 := by
              have h2 : ¬sel.length ≥ 2 := by simpa [maxReviewers] using hge
              omega
            simp only [List.length_singleton]
            omega
          · exact ih _ _ _ h

/-- Provenance of every selected reviewer: it was already selected, or it is
a candidate whose storage re-check (`GetUser`) succeeded with matching
fields. -/
lemma selectLoop_mem (db : DB) (fuel : Nat) :
    ∀ (rs : List Nat) (cands : List String) (sel : List PRReviewer),
      ∀ r ∈ selectLoop db fuel rs cands sel,
        r ∈ sel ∨ (r.userID ∈ cands ∧
          ∃ u, db.getUser r.userID = some u ∧ u.userID = r.userID ∧
            u.username = r.username ∧ u.isActive = r.isActive) := by
  induction fuel with
  | zero =>
    intro rs cands sel r hr
    rw [selectLoop.eq_1] at hr
    exact .inl hr
  | succ fuel ih =>
    intro rs cands sel r hr
    cases cands with
    | nil =>
      rw [selectLoop.eq_2] at hr
      split at hr <;> exact .inl hr
    | cons c cs =>
      have hlen : 0 < (c :: cs).length := by simp
      rw [selectLoop.eq_3] at hr
      split at hr
      · exact .inl hr
      next hge =>
        dsimp only at hr
        split at hr
        next hu =>
          rcases ih _ _ _ r hr with h | ⟨hmem, hex⟩
          · exact .inl h
          · exact .inr ⟨List.mem_of_mem_eraseIdx hmem, hex⟩
        next u hu =>
          split at hr
          next hact =>
            rcases ih _ _ _ r hr with h | ⟨hmem, hex⟩
            · rcases List.mem_append.mp h with h | h
              · exact .inl h
              · have hrx : r = ⟨u.userID, u.username, u.isActive⟩ := by
                  simpa using h
                right
                have huid : u.userID
                    = (c :: cs).getD (rs.headD 0 % (c :: cs).length) "" :=
                  (getUser_mem db _ u hu).2
                constructor
                · rw [hrx]
                  dsimp only
                  rw [huid]
                  exact getD_mem _ _ _ (Nat.mod_lt _ hlen)
                · refine ⟨u, ?_, by rw [hrx], by rw [hrx], by rw [hrx]⟩
                  rw [hrx]
                  dsimp only
                  rw [huid]
                  exact hu
            · exact .inr ⟨List.mem_of_mem_eraseIdx hmem, hex⟩
          next hact =>
            rcases ih _ _ _ r hr with h | ⟨hmem, hex⟩
            · exact .inl h
            · exact .inr ⟨List.mem_of_mem_eraseIdx hmem, hex⟩

/-- With no stored row for the id, referential integrity makes the
`pr_reviewers` selection for that id empty. -/
lemma reviewersOf_nil_of_no_row (db : DB) (prID : String)
    (hri : revPRIntegrity db) (hrow : db.getPRRow prID = none) :
    db.reviewersOf prID = [] := by
  unfold DB.reviewersOf
  rw [List.filter_eq_nil_iff]
  intro p hp hcon
  rcases hri p hp with ⟨row, hrowmem, hrid⟩
  unfold DB.getPRRow at hrow
  have : ¬(row.pullRequestID == prID) = true :=
    List.find?_eq_none.mp hrow row hrowmem
  exact this (by simp [hrid, show p.1 = prID by simpa using hcon])

/-- The reviewer join over the freshly inserted pairs maps each selected
entry — whose user lookup reproduces its fields — back to itself. -/
lemma filterMap_join_pairs (db : DB) (prID : String) :
    ∀ (sel : List PRReviewer),
      (∀ r ∈ sel, ∃ u, db.getUser r.userID = some u ∧ u.userID = r.userID ∧
        u.username = r.username ∧ u.isActive = r.isActive) →
      (sel.map (fun r => (prID, r.userID))).filterMap (fun p =>
        (db.getUser p.2).map (fun u =>
          ({ userID := u.userID, username := u.username,
             isActive := u.isActive } : PRReviewer)))
        = sel := by
  intro sel
  induction sel with
  | nil => intro _; rfl
  | cons r rest ih =>
    intro hall
    rcases hall r (List.mem_cons_self r rest) with ⟨u, hu, h1, h2, h3⟩
    rw [List.map_cons, List.filterMap_cons]
    dsimp only
    rw [hu, Option.map_some']
    dsimp only
    rw [ih (fun x hx => hall x (List.mem_cons_of_mem r hx))]
    have hr : ({ userID := u.userID, username := u.username,
                 isActive := u.isActive } : PRReviewer) = r := by
      cases r
      simp only [PRReviewer.mk.injEq]
      exact ⟨h1, h2, h3⟩
    rw [hr]

/-- The record fetched right after the insert of `CreatePR` is exactly the
inserted pull request (row fields and reviewer join). -/
lemma getPR_after_create (db : DB) (pr1 : PullRequest)
    (hri : revPRIntegrity db)
    (hrow : db.getPRRow pr1.pullRequestID = none)
    (hsel : ∀ r ∈ pr1.assigned, ∃ u, db.getUser r.userID = some u ∧
      u.userID = r.userID ∧ u.username = r.username ∧ u.isActive = r.isActive) :
    (({ db with
        prs := db.prs ++ [{ pullRequestID := pr1.pullRequestID
                            pullRequestName := pr1.pullRequestName
                            authorID := pr1.authorID
                            status := pr1.status
                            needMoreReviewers := pr1.needMoreReviewers
                            createdAt := pr1.createdAt
                            mergedAt := pr1.mergedAt }]
        reviewers := db.reviewers ++ pr1.assigned.map
          (fun r => (pr1.pullRequestID, r.userID)) } : DB)).getPR
      pr1.pullRequestID = some pr1 := by
  have hfind : (({ db with
      prs := db.prs ++ [{ pullRequestID := pr1.pullRequestID
                          pullRequestName := pr1.pullRequestName
                          authorID := pr1.authorID
                          status := pr1.status
                          needMoreReviewers := pr1.needMoreReviewers
                          createdAt := pr1.createdAt
                          mergedAt := pr1.mergedAt }]
      reviewers := db.reviewers ++ pr1.assigned.map
        (fun r => (pr1.pullRequestID, r.userID)) } : DB)).getPRRow
      pr1.pullRequestID = some { pullRequestID := pr1.pullRequestID
                                 pullRequestName := pr1.pullRequestName
                                 authorID := pr1.authorID
                                 status := pr1.status
                                 needMoreReviewers := pr1.needMoreReviewers
                                 createdAt := pr1.createdAt
                                 mergedAt := pr1.mergedAt } := by
    unfold DB.getPRRow at hrow ⊢
    dsimp only
    rw [List.find?_append, hrow]
    simp [List.find?_cons]
  have hrevs : (({ db with
      prs := db.prs ++ [{ pullRequestID := pr1.pullRequestID
                          pullRequestName := pr1.pullRequestName
                          authorID := pr1.authorID
                          status := pr1.status
                          needMoreReviewers := pr1.needMoreReviewers
                          createdAt := pr1.createdAt
                          mergedAt := pr1.mergedAt }]
      reviewers := db.reviewers ++ pr1.assigned.map
        (fun r => (pr1.pullRequestID, r.userID)) } : DB)).reviewersOf
      pr1.pullRequestID
      = pr1.assigned.map (fun r => (pr1.pullRequestID, r.userID)) := by
    unfold DB.reviewersOf
    dsimp only
    rw [List.filter_append]
    rw [show db.reviewers.filter (fun p => p.1 == pr1.pullRequestID) = [] from
      reviewersOf_nil_of_no_row db pr1.pullRequestID hri hrow]
    rw [List.nil_append, List.filter_eq_self.mpr]
    intro p hp
    rcases List.mem_map.mp hp with ⟨r, _, hpr⟩
    rw [← hpr]
    simp
  unfold DB.getPR
  rw [hfind, hrevs]
  rw [Option.map_some']
  have hjoin := filterMap_join_pairs db pr1.pullRequestID pr1.assigned hsel
  unfold DB.getUser at hjoin ⊢
  dsimp only
  rw [hjoin]

/-- Constructive success of `CreatePR` once validation, non-existence and
author-team resolution hold: it returns the pull request with the selected
reviewers, `OPEN` status, the recomputed flag, and the extended store. -/
lemma createPR_ok_shape (db : DB) (rs : List Nat) (now : Nat)
    (pr0 : PullRequest) (teamName : String)
    (hv : validatePullRequest pr0 = none)
    (hrow : db.getPRRow pr0.pullRequestID = none)
    (hteam : db.getUserTeam pr0.authorID = some teamName)
    (hri : revPRIntegrity db) :
    createPR db rs now pr0 = (.ok
      { pr0 with
        assigned := selectReviewers db rs
          (db.getActiveTeamMembersExcept teamName pr0.authorID)
        needMoreReviewers := decide ((selectReviewers db rs
          (db.getActiveTeamMembersExcept teamName pr0.authorID)).length
            < maxReviewers)
        status := "OPEN"
        createdAt := now },
      { db with
        prs := db.prs ++ [{ pullRequestID := pr0.pullRequestID
                            pullRequestName := pr0.pullRequestName
                            authorID := pr0.authorID
                            status := "OPEN"
                            needMoreReviewers := decide ((selectReviewers db rs
                              (db.getActiveTeamMembersExcept teamName
                                pr0.authorID)).length < maxReviewers)
                            createdAt := now
                            mergedAt := pr0.mergedAt }]
        reviewers := db.reviewers ++ (selectReviewers db rs
          (db.getActiveTeamMembersExcept teamName pr0.authorID)).map
            (fun r => (pr0.pullRequestID, r.userID)) }) := by
  have hsel : ∀ r ∈ selectReviewers db rs
      (db.getActiveTeamMembersExcept teamName pr0.authorID),
      ∃ u, db.getUser r.userID = some u ∧ u.userID = r.userID ∧
        u.username = r.username ∧ u.isActive = r.isActive := by
    intro r hr
    rcases selectLoop_mem db _ rs _ [] r hr with h | ⟨_, hex⟩
    · simp at h
    · exact hex
  have hget := getPR_after_create db
    { pr0 with
      assigned := selectReviewers db rs
        (db.getActiveTeamMembersExcept teamName pr0.authorID)
      needMoreReviewers := decide ((selectReviewers db rs
        (db.getActiveTeamMembersExcept teamName pr0.authorID)).length
          < maxReviewers)
      status := "OPEN"
      createdAt := now } hri hrow hsel
  dsimp only at hget
  simp only [createPR, hv, hteam, DB.createPRRepo, hrow, Option.isSome_none,
    Bool.false_eq_true, if_false, hget]

/-- C1: every successful `CreatePR` returns between 0 and 2 reviewers, never
including the author, with `needsMoreReviewers` true exactly when fewer than
two were assigned; and with zero eligible candidates `CreatePR` still
succeeds, with zero reviewers and the flag set — not an error. -/
theorem createPR_reviewer_bounds :
    (∀ (db : DB) (rs : List Nat) (now : Nat) (pr0 created : PullRequest)
        (db' : DB), revPRIntegrity db →
      createPR db rs now pr0 = (.ok created, db') →
      created.assigned.length ≤ 2 ∧
      (∀ r ∈ created.assigned, r.userID ≠ pr0.authorID) ∧
      (created.needMoreReviewers = true ↔ created.assigned.length < 2)) ∧
    (∀ (db : DB) (rs : List Nat) (now : Nat) (pr0 : PullRequest)
        (teamName : String), revPRIntegrity db →
      validatePullRequest pr0 = none →
      db.getPRRow pr0.pullRequestID = none →
      db.getUserTeam pr0.authorID = some teamName →
      db.getActiveTeamMembersExcept teamName pr0.authorID = [] →
      ∃ created db', createPR db rs now pr0 = (.ok created, db') ∧
        created.assigned = [] ∧ created.needMoreReviewers = true) := by
  constructor
  · intro db rs now pr0 created db' hri h
    -- each guard must have passed, else the result were an error
    rcases hv : validatePullRequest pr0 with _ | e
    case some => simp [createPR, hv] at h
    rcases hrowE : db.getPRRow pr0.pullRequestID with _ | row
    case some => simp [createPR, hv, hrowE] at h
    rcases hteamE : db.getUserTeam pr0.authorID with _ | teamName
    case none => simp [createPR, hv, hrowE, hteamE] at h
    have hshape := createPR_ok_shape db rs now pr0 teamName hv hrowE hteamE hri
    rw [hshape] at h
    have hcreated := Except.ok.inj (congrArg Prod.fst h)
    rw [← hcreated]
    refine ⟨?_, ?_, ?_⟩
    · exact selectLoop_length_le db _ rs _ [] (by simp)
    · intro r hr
      rcases selectLoop_mem db _ rs _ [] r hr with hmem | ⟨hmem, _⟩
      · simp at hmem
      · have hauthor : pr0.authorID ≠ "" := by
          unfold validatePullRequest at hv
          split at hv
          · exact absurd hv (by simp)
          · split at hv
            · exact absurd hv (by simp)
            · split at hv
              · exact absurd hv (by simp)
              next hb => simpa using hb
        exact (mem_activeExcept db teamName pr0.authorID r.userID hmem).2
          hauthor
    · simp [maxReviewers]
  · intro db rs now pr0 teamName hri hv hrow hteam hcands
    refine ⟨_, _, createPR_ok_shape db rs now pr0 teamName hv hrow hteam hri, ?_, ?_⟩
    · dsimp only
      rw [hcands]
      rfl
    · dsimp only
      rw [hcands]
      rfl

/-- C1 witness: at `wCreateDB` (one active candidate) the invariants hold on
the created record, and at `wLoneDB` (no candidates) creation succeeds with
zero reviewers and the flag set. -/
theorem createPR_reviewer_bounds_witness :
    (wCreatedPR.assigned.length ≤ 2 ∧
      (∀ r ∈ wCreatedPR.assigned, r.userID ≠ "u1") ∧
      (wCreatedPR.needMoreReviewers = true ↔ wCreatedPR.assigned.length < 2)) ∧
    (∃ created db', createPR wLoneDB [0] 5 wCreatePRIn = (.ok created, db') ∧
      created.assigned = [] ∧ created.needMoreReviewers = true) :=
  ⟨by
    have h := createPR_reviewer_bounds.1 wCreateDB [0] 5 wCreatePRIn
      wCreatedPR wCreateDBAfter (by decide) rfl
    exact ⟨h.1, fun r hr => h.2.1 r hr, h.2.2⟩,
   createPR_reviewer_bounds.2 wLoneDB [0] 5 wCreatePRIn "A" (by decide) rfl rfl
     rfl rfl⟩

/-! ## Claim C7: DeactivateTeam and the sole inactive reviewer -/

/-- After the bulk flip, the deactivated team has no active member left, so
the cascade's candidate query returns nothing. -/
lemma activeExcept_after_flip (db : DB) (teamName : String) :
    (({ db with users := db.users.map (fun u =>
        if u.teamName == teamName then { u with isActive := false }
        else u) } : DB)).getActiveTeamMembersExcept teamName "" = [] := by
  unfold DB.getActiveTeamMembersExcept
  dsimp only
  have hfil : (db.users.map (fun u =>
      if u.teamName == teamName then { u with isActive := false }
      else u)).filter (fun u => u.teamName == teamName && u.isActive
        && (("" : String) == "" || u.userID != "")) = [] := by
    rw [List.filter_eq_nil_iff]
    intro u hu
    rcases List.mem_map.mp hu with ⟨v, _, hv⟩
    by_cases ht : v.teamName = teamName
    · rw [← hv, if_pos (by simpa using ht)]
      simp
    · rw [← hv, if_neg (by simpa using ht)]
      simp [ht]
  rw [hfil]
  rfl

/-- With an empty candidate query for the deactivated team, every
single-shot replacement attempt fails and returns the store and the oracle
stream unchanged. -/
lemma reassignReviewer_frozen (db : DB) (teamName : String)
    (hempty : db.getActiveTeamMembersExcept teamName "" = []) (rs : List Nat)
    (prID oldUID : String) :
    ∃ e, reassignReviewer db rs prID oldUID teamName = (.error e, rs) := by
  unfold reassignReviewer
  rw [hempty]
  cases db.getPR prID with
  | none => exact ⟨.notFound, rfl⟩
  | some pr => exact ⟨.noCandidate, rfl⟩

/-- The innermost cascade loop leaves everything unchanged once the
deactivated team has no active members. -/
lemma deactivateRevLoop_frozen (db : DB) (teamName prID : String)
    (hempty : db.getActiveTeamMembersExcept teamName "" = []) :
    ∀ (revs : List PRReviewer) (rs : List Nat),
      deactivateRevLoop db rs teamName prID revs = (db, rs) := by
  intro revs
  induction revs with
  | nil => intro rs; rfl
  | cons rev rest ih =>
    intro rs
    rw [deactivateRevLoop]
    split
    · exact ih rs
    next user hu =>
      split
      · exact ih rs
      · rcases reassignReviewer_frozen db teamName hempty rs prID rev.userID
          with ⟨e, hrr⟩
        rw [hrr]
        exact ih rs

/-- The per-PR cascade loop leaves everything unchanged once the deactivated
team has no active members. -/
lemma deactivatePRLoop_frozen (db : DB) (teamName : String)
    (hempty : db.getActiveTeamMembersExcept teamName "" = []) :
    ∀ (shorts : List PullRequestShort) (rs : List Nat),
      deactivatePRLoop db rs teamName shorts = (db, rs) := by
  intro shorts
  induction shorts with
  | nil => intro rs; rfl
  | cons s rest ih =>
    intro rs
    rw [deactivatePRLoop]
    split
    · exact ih rs
    next pr hpr =>
      split
      · exact ih rs
      · rw [deactivateRevLoop_frozen db teamName s.pullRequestID hempty
          pr.assigned rs]
        exact ih rs

/-- The member cascade loop leaves everything unchanged once the deactivated
team has no active members. -/
lemma deactivateMemberLoop_frozen (db : DB) (teamName : String)
    (hempty : db.getActiveTeamMembersExcept teamName "" = []) :
    ∀ (ms : List TeamMember) (rs : List Nat),
      deactivateMemberLoop db rs teamName ms = (db, rs) := by
  intro ms
  induction ms with
  | nil => intro rs; rfl
  | cons m rest ih =>
    intro rs
    rw [deactivateMemberLoop]
    rw [deactivatePRLoop_frozen db teamName hempty (db.getPRsByReviewer m.userID)
      rs]
    exact ih rs

/-- C7 counterexample: at `c7db` (open `pr1`, sole reviewer `u2` of the
deactivated team), `DeactivateTeam` reports success but neither replaces the
now-inactive sole reviewer nor reduces the reviewer set: the claimed
disjunction — "replaced, or reduced with `needsMoreReviewers` true" — is
false, because the reviewer rows are exactly the untouched `[("pr1","u2")]`
with `u2` inactive. -/
theorem deactivateTeam_sole_reviewer_cex :
    deactivateTeam c7db [0] "A" = (.ok (),
      ⟨[⟨"u1", "U1", "A", false⟩, ⟨"u2", "U2", "A", false⟩],
       [⟨"pr1", "T", "u1", "OPEN", true, 0, none⟩],
       [("pr1", "u2")]⟩) ∧
    ((deactivateTeam c7db [0] "A").2.getUser "u2").map (fun u => u.isActive)
      = some false ∧
    ¬ (((deactivateTeam c7db [0] "A").2.reviewersOf "pr1"
          ≠ c7db.reviewersOf "pr1") ∨
       (((deactivateTeam c7db [0] "A").2.reviewersOf "pr1").length
          < (c7db.reviewersOf "pr1").length)) :=
  ⟨rfl, rfl, by decide⟩

/-- C7 (amended): `DeactivateTeam` always attempts the per-reviewer
replacement, but its pool is the just-deactivated team, which has no active
member left; every attempt therefore fails `NoCandidate` and is skipped, the
reviewer rows and pull-request rows are left exactly as they were (the
inactive reviewer stays recorded, `needsMoreReviewers` is not updated in
storage), and the overall operation still succeeds. -/
theorem deactivateTeam_keeps_reviewer_sets (db : DB) (rs : List Nat)
    (name : String) (team : Team) (ht : getTeamSvc db name = .ok team) :
    ∃ db', deactivateTeam db rs name = (.ok (), db') ∧
      db'.reviewers = db.reviewers ∧ db'.prs = db.prs := by
  -- the team resolved, so it has a member and the bulk flip succeeds
  have hmem : ∃ u ∈ db.users, (u.teamName == name) = true := by
    unfold getTeamSvc at ht
    split at ht
    · exact absurd ht (by simp)
    · rcases hg : db.getTeam name with _ | t
      · rw [hg] at ht
        exact absurd ht (by simp)
      · unfold DB.getTeam at hg
        dsimp only at hg
        split at hg
        · exact absurd hg (by simp)
        next hne =>
          rcases hu : db.users.filter (fun u => u.teamName == name) with _ | ⟨u, rest⟩
          · rw [List.isEmpty_iff] at hne
            exact absurd (by rw [List.map_eq_nil_iff]; exact hu) hne
          · have humem : u ∈ db.users.filter (fun u => u.teamName == name) := by
              rw [hu]
              exact List.mem_cons_self u rest
            have hcond := List.of_mem_filter humem
            exact ⟨u, List.mem_of_mem_filter humem, hcond⟩
  have hany : db.users.any (fun u => u.teamName == name) = true :=
    List.any_eq_true.mpr (by
      rcases hmem with ⟨u, hu, hn⟩
      exact ⟨u, hu, hn⟩)
  have hset : db.setTeamActive name false = .ok ({ db with
      users := db.users.map (fun u =>
        if u.teamName == name then { u with isActive := false } else u) }) := by
    unfold DB.setTeamActive
    rw [if_pos hany]
  refine ⟨{ db with users := db.users.map (fun u =>
      if u.teamName == name then { u with isActive := false } else u) },
    ?_, rfl, rfl⟩
  unfold deactivateTeam
  rw [ht, hset]
  dsimp only
  rw [deactivateMemberLoop_frozen _ name (activeExcept_after_flip db name)
    team.members rs]

/-- C7 witness (for the amended claim): the cascade at `c7db` succeeds while
leaving the reviewer rows untouched. -/
theorem deactivateTeam_keeps_reviewer_sets_witness :
    ∃ db', deactivateTeam c7db [0] "A" = (.ok (), db') ∧
      db'.reviewers = c7db.reviewers ∧ db'.prs = c7db.prs :=
  deactivateTeam_keeps_reviewer_sets c7db [0] "A"
    ⟨"A", [⟨"u1", "U1", true⟩, ⟨"u2", "U2", true⟩]⟩ rfl

/-! ## Claim C2: where the cascade's replacement pool comes from -/

/-- C2 counterexample: at `c2db` the author of `pr1` (`u3`) belongs to team
`B`, while the deactivated team is `A`.  The code's cascade leaves the
reviewer row `("pr1","u2")` in place (its pool is `A`, now empty), whereas
the spec-worded variant sourcing the pool from the PR's own author's team
replaces `u2` by `u3`: the two computations disagree, so the replacement is
not drawn from the author's team. -/
theorem deactivateTeam_pool_not_author_team_cex :
    (deactivateTeam c2db [0] "A").2.reviewersOf "pr1" = [("pr1", "u2")] ∧
    (deactivateTeamAuthorTeam c2db [0] "A").2.reviewersOf "pr1"
      = [("pr1", "u3")] ∧
    (deactivateTeam c2db [0] "A").2 ≠ (deactivateTeamAuthorTeam c2db [0] "A").2 :=
  ⟨rfl, rfl, by decide⟩

/-- C2 (amended): the cascade's single-shot replacement draws its candidates
from the active members of the `teamName` argument — during `DeactivateTeam`
that is the team being deactivated — not from the PR author's team: a
successful `reassignReviewer` always returns a member of that argument
team's active-member query. -/
theorem reassignReviewer_pool_from_team_argument (db : DB) (rs : List Nat)
    (prID oldUID teamName newUID : String) (db' : DB) (rs' : List Nat)
    (h : reassignReviewer db rs prID oldUID teamName = (.ok (newUID, db'), rs')) :
    newUID ∈ db.getActiveTeamMembersExcept teamName "" := by
  unfold reassignReviewer at h
  split at h
  · exact absurd (congrArg Prod.fst h) (by simp)
  next pr hpr =>
    dsimp only at h
    split at h
    next hempty => exact absurd (congrArg Prod.fst h) (by simp)
    next hempty =>
      split at h
      next e db2 hrep => exact absurd (congrArg Prod.fst h) (by simp)
      next pr2 db2 hrep =>
        have h2 := Except.ok.inj (congrArg Prod.fst h)
        have hnid := congrArg Prod.fst h2
        dsimp only at hnid
        have hlen : 0 < ((db.getActiveTeamMembersExcept teamName "").filter
            (fun c => !(pr.assigned.any (fun a => a.userID == c)))).length := by
          rw [List.length_pos]
          intro hnil
          rw [hnil] at hempty
          exact hempty rfl
        have hmem := getD_mem ((db.getActiveTeamMembersExcept teamName "").filter
          (fun c => !(pr.assigned.any (fun a => a.userID == c))))
          (rs.headD 0 % ((db.getActiveTeamMembersExcept teamName "").filter
            (fun c => !(pr.assigned.any (fun a => a.userID == c)))).length) ""
          (Nat.mod_lt _ hlen)
        rw [← hnid]
        exact List.mem_of_mem_filter hmem

/-- C2 witness (for the amended claim): the successful replacement at
`wPoolDB` returns `b`, an active member of the argument team `T`. -/
theorem reassignReviewer_pool_from_team_argument_witness :
    ("b" : String) ∈ wPoolDB.getActiveTeamMembersExcept "T" "" :=
  reassignReviewer_pool_from_team_argument wPoolDB [0] "pr2" "a" "T" "b"
    ⟨[⟨"a", "A1", "T", true⟩, ⟨"b", "B1", "T", true⟩],
     [⟨"pr2", "N", "a", "OPEN", true, 0, none⟩],
     [("pr2", "b")]⟩ [] rfl

/-! ## Claim C9: malformed payloads never crash a worker -/

/-- C9: for a job of a known kind whose payload lacks a required parameter
or carries it with the wrong dynamic type, `handleJob` (with the job not
already cancelled) returns a `JobResult` tagged with the unknown-job-type
error and leaves the store untouched — the type assertions are checked, so a
worker never panics on a malformed payload. -/
theorem handleJob_malformed_payload (db : DB) (rs : List Nat) (now : Nat)
    (job : Job) (hc : job.ctxCanceled = false) (hk : job.type ∈ knownJobTypes)
    (hp : payloadOK job = false) :
    (handleJob db rs now job).1.error = some .unknownJobType ∧
    (handleJob db rs now job).2 = db := by
  have hks : job.type = "create_pr" ∨ job.type = "merge_pr" ∨
      job.type = "reassign_pr" ∨ job.type = "get_team" ∨
      job.type = "set_user_active" ∨ job.type = "get_reviews" ∨
      job.type = "deactivate_team" := by
    simpa [knownJobTypes] using hk
  rcases hks with h | h | h | h | h | h | h
  · rcases hx : asPR (job.lookup "pr") with _ | v
    · constructor <;> simp [handleJob, hc, h, hx]
    · simp [payloadOK, h, hx] at hp
  · rcases hx : asStr (job.lookup "pr_id") with _ | v
    · constructor <;> simp [handleJob, hc, h, hx]
    · simp [payloadOK, h, hx] at hp
  · rcases hx : asStr (job.lookup "pr_id") with _ | v1
    · constructor <;> simp [handleJob, hc, h, hx]
    · rcases hy : asStr (job.lookup "old_user") with _ | v2
      · constructor <;> simp [handleJob, hc, h, hx, hy]
      · simp [payloadOK, h, hx, hy] at hp
  · rcases hx : asStr (job.lookup "team") with _ | v
    · constructor <;> simp [handleJob, hc, h, hx]
    · simp [payloadOK, h, hx] at hp
  · rcases hx : asStr (job.lookup "uid") with _ | v1
    · constructor <;> simp [handleJob, hc, h, hx]
    · rcases hy : asBool (job.lookup "active") with _ | v2
      · constructor <;> simp [handleJob, hc, h, hx, hy]
      · simp [payloadOK, h, hx, hy] at hp
  · rcases hx : asStr (job.lookup "uid") with _ | v
    · constructor <;> simp [handleJob, hc, h, hx]
    · simp [payloadOK, h, hx] at hp
  · rcases hx : asStr (job.lookup "team_name") with _ | v
    · constructor <;> simp [handleJob, hc, h, hx]
    · simp [payloadOK, h, hx] at hp

/-- C9 witness: a `create_pr` job whose payload carries `pr` with the wrong
dynamic type is answered with the unknown-job-type tag, store untouched. -/
theorem handleJob_malformed_payload_witness :
    (handleJob wMergeDB [0] 0
      ⟨false, "create_pr", [("pr", .str "oops")], true⟩).1.error
        = some .unknownJobType ∧
    (handleJob wMergeDB [0] 0
      ⟨false, "create_pr", [("pr", .str "oops")], true⟩).2 = wMergeDB :=
  handleJob_malformed_payload wMergeDB [0] 0
    ⟨false, "create_pr", [("pr", .str "oops")], true⟩ rfl (by decide) rfl

end PRrev
